import Mathlib

/-!
Verification development for the logic-simulator front end
(`logsim/scanner.py`, `logsim/parse.py` and the preliminary-exercise
name table `Prelim rjh254/mynames.py`).

The Python code is shallowly embedded: every Python method that matters to
the properties below is translated into an executable Lean function over an
explicit state record.  File reads are modelled by an explicit cursor
(`tell`) into the immutable source text, `file_position` by an integer
counter, and Python `None` by `Option`.  Loops carry an explicit fuel
argument and return `none` when the fuel runs out, so every function is
total; all statements about runs are conditional on the run completing.

The collaborating modules `devices.py`, `network.py`, `monitors.py` and
`names.py` are not part of the source tree (only the scanner and parser
are), so:
  * the `Names` table used by scanner and parser is modelled from the
    specification (an interning list of strings; see `pyLookup`);
  * `Devices`, `Network` and `Monitors` are modelled abstractly: every
    `make_*` call the parser issues is recorded as a `DEvent`, and the
    values those collaborators return are supplied by an arbitrary
    deterministic oracle (`Collab`) that may depend on the call history.

Character classification (`isalpha`, `isdigit`, `isspace`, `isalnum`) is
modelled on the ASCII range, which covers every character the circuit
definition language uses.
-/

namespace LogSim

/-! ## Python character predicates (ASCII range) -/

def pyIsSpace (c : Char) : Bool :=
  c = ' ' ∨ c = '\t' ∨ c = '\n' ∨ c = '\x0b' ∨ c = '\x0c' ∨ c = '\r'

def pyIsAlpha (c : Char) : Bool :=
  ('A' ≤ c ∧ c ≤ 'Z') ∨ ('a' ≤ c ∧ c ≤ 'z')

def pyIsDigit (c : Char) : Bool :=
  '0' ≤ c ∧ c ≤ '9'

def pyIsAlnum (c : Char) : Bool :=
  pyIsAlpha c ∨ pyIsDigit c

def pyDigitVal (c : Char) : Nat :=
  c.toNat - '0'.toNat

/-- Python `int(s)` for the decimal strings the scanner produces
(total: non-digit strings, which would raise in Python, give 0). -/
def pyStrToNat (s : Option String) : Nat :=
  ((s.getD "").toNat?).getD 0

/-! ## Splitting a text into lines

`splitNl` models Python `text.split("\n")` (always at least one piece,
pieces do not contain the separator).  `lineLengths` models the list
`[len(line) for line in file]` computed by the scanner constructor: file
iteration yields each line including its trailing newline and does not
yield a final empty line. -/

def splitNl : List Char → List (List Char)
  | [] => [[]]
  | c :: rest =>
    let r := splitNl rest
    if c = '\n' then [] :: r
    else (c :: r.headD []) :: r.tail

def lineLengths (src : List Char) : List Nat :=
  let ps := splitNl src
  let butLast := ps.dropLast.map (fun p => p.length + 1)
  if (ps.getLastD []).length = 0 then butLast
  else butLast ++ [(ps.getLastD []).length]

/-- `sol_pos` of `Scanner.print_error`:
`[sum(line_lengths[:i]) for i in range(len(line_lengths))]`. -/
def solPositions (lengths : List Nat) : List Nat :=
  (List.range lengths.length).map (fun i => (lengths.take i).sum)

/-- Python `max` over a list (total: `[]`, which would raise, gives 0). -/
def pyMax : List Int → Int
  | [] => 0
  | x :: xs => xs.foldl max x

/-! ## The Names table used by scanner and parser

Modelled from the spec: `names.py` of the simulator is not in the source
tree; the specification describes `lookup` as interning (unknown strings
are appended and get the next unused ID, known strings return their
existing ID) and `query` as a non-inserting lookup returning an absent
sentinel (`None`) for unknown strings. -/

/-- Modelled from the spec: `Names.lookup` on a single string. -/
def pyLookup (names : List String) (s : String) : List String × Nat :=
  if s ∈ names then (names, names.indexOf s)
  else (names ++ [s], names.length)

/-- Modelled from the spec: `Names.lookup` on a list of strings
(sequential interning, returning the list of IDs). -/
def pyLookupList (names : List String) : List String → List String × List Nat
  | [] => (names, [])
  | s :: rest =>
    let (names', i) := pyLookup names s
    let (names'', is) := pyLookupList names' rest
    (names'', i :: is)

/-- Modelled from the spec: `Names.query` (never inserts; returns the
absent sentinel for an unknown or absent string). -/
def pyQuery (names : List String) (s : Option String) : Option Nat :=
  match s with
  | none => none
  | some str => if str ∈ names then some (names.indexOf str) else none

/-! ## The preliminary-exercise name table (`Prelim rjh254/mynames.py`) -/

structure MyNames where
  names_list : List String
deriving Repr, DecidableEq

/-- `MyNames.lookup`: return the ID of `name_string`, appending it first
if absent (the returned table is the possibly-extended one). -/
def myLookup (st : MyNames) (s : String) : MyNames × Nat :=
  if s ∈ st.names_list then (st, st.names_list.indexOf s)
  else (⟨st.names_list ++ [s]⟩, (st.names_list ++ [s]).length - 1)

/-- `MyNames.get_string` on an integer ID (the `TypeError`/`ValueError`
paths concern non-integer and negative inputs, which the `Nat` argument
type excludes): `None` when the ID is not a valid index. -/
def myGetString (st : MyNames) (i : Nat) : Option String :=
  if h : i < st.names_list.length then some (st.names_list.get ⟨i, h⟩)
  else none

/-- Modelled from the spec: `Names.query` for the preliminary name table
(`mynames.py` has no `query`; the spec describes it as a non-inserting
lookup returning the absent sentinel when the string is unknown). -/
def myQuery (st : MyNames) (s : String) : Option Nat :=
  if s ∈ st.names_list then some (st.names_list.indexOf s) else none

/-! ## Symbols (`scanner.Symbol`)

All four attributes start as Python `None` and are set selectively, hence
the `Option` types.  `position` is an `Int` because `file_position` can go
negative transiently inside `backwards`. -/

structure Symbol where
  type : Option Nat
  id : Option Nat
  position : Option Int
  string : Option String
deriving Repr, DecidableEq

def defaultSymbol : Symbol := ⟨none, none, none, none⟩

/-! Symbol type codes, in the order of `range(15)` in `Scanner.__init__`. -/

def tyCOMMA : Nat := 0
def tySEMICOLON : Nat := 1
def tyEQUALS : Nat := 2
def tyKEYWORD : Nat := 3
def tyNUMBER : Nat := 4
def tyZERO : Nat := 5
def tyNAME : Nat := 6
def tyBRACE_LEFT : Nat := 7
def tyBRACE_RIGHT : Nat := 8
def tyPARENTHESIS_LEFT : Nat := 9
def tyPARENTHESIS_RIGHT : Nat := 10
def tyARROW : Nat := 11
def tyDOT : Nat := 12
def tyEOF : Nat := 13
def tyINVALID_CHARACTER : Nat := 14

def keywordsList : List String :=
  ["CIRCUIT", "DEVICES", "CONNECT", "MONITOR", "END", "CLOCK", "SWITCH",
   "AND", "NAND", "OR", "NOR", "XOR", "NOT", "DTYPE"]

/-! Keyword name IDs as interned by `Scanner.__init__` on a fresh `Names`
table (spec invariant I5: the keywords occupy the fixed prefix 0..13). -/

def kwCIRCUIT : Nat := 0
def kwDEVICES : Nat := 1
def kwCONNECT : Nat := 2
def kwMONITOR : Nat := 3
def kwEND : Nat := 4
def kwCLOCK : Nat := 5
def kwSWITCH : Nat := 6
def kwAND : Nat := 7
def kwNAND : Nat := 8
def kwOR : Nat := 9
def kwNOR : Nat := 10
def kwXOR : Nat := 11
def kwNOT : Nat := 12
def kwDTYPE : Nat := 13

/-- Sanity check: interning the keyword list into a fresh table yields
IDs 0..13 in order. -/
theorem keyword_ids_check :
    pyLookupList [] keywordsList = (keywordsList, List.range 14) := by decide

def lbraceChar : Char := Char.ofNat 123
def rbraceChar : Char := Char.ofNat 125

/-! ## Scanner state and primitive file operations

`src` is the (immutable) translated text of the file, `tell` the file
handle's read position (`self.file.tell()`), `filePos` the scanner's own
`self.file_position` counter, `current` the one-character string
`self.current_character` (`none` for `""`). -/

structure ScannerS where
  src : List Char
  tell : Nat
  filePos : Int
  current : Option Char
  comment : Bool
  names : List String
deriving Repr, DecidableEq

/-- `self.file.read(1)`: the character at the cursor (advancing it), or
`""` at end of file (cursor unmoved). -/
def read1 (sc : ScannerS) : ScannerS × Option Char :=
  if h : sc.tell < sc.src.length then
    ({sc with tell := sc.tell + 1}, some (sc.src.get ⟨sc.tell, h⟩))
  else (sc, none)

/-- `Scanner.advance`: `current_character = file.read(1)`,
`file_position += 1` (written with the read inlined). -/
def advance (sc : ScannerS) : ScannerS :=
  if h : sc.tell < sc.src.length then
    {sc with
      tell := sc.tell + 1
      current := some (sc.src.get ⟨sc.tell, h⟩)
      filePos := sc.filePos + 1}
  else {sc with current := none, filePos := sc.filePos + 1}

/-- Sanity check: `advance` is exactly `read1` followed by the
`file_position` increment. -/
theorem advance_eq_read1 (sc : ScannerS) :
    advance sc =
      (match read1 sc with
       | (sc', c) => {sc' with current := c, filePos := sc'.filePos + 1}) := by
  unfold advance read1
  split <;> rfl

/-- `Scanner.backwards`: `seek(tell()-1)` resp. `seek(tell()-2)`, adjust
`file_position`, then `advance`. -/
def backwards (sc : ScannerS) : ScannerS :=
  if sc.current = none then
    advance {sc with tell := sc.tell - 1, filePos := sc.filePos - 1}
  else
    advance {sc with tell := sc.tell - 2, filePos := sc.filePos - 2}

/-- `Scanner.skip_spaces` (fueled loop). -/
def skipSpaces : Nat → ScannerS → Option ScannerS
  | 0, _ => none
  | fuel + 1, sc =>
    match sc.current with
    | some c => if pyIsSpace c then skipSpaces fuel (advance sc) else some sc
    | none => some sc

/-- Loop of `Scanner.get_name`: append alphanumeric characters. -/
def getNameLoop : Nat → ScannerS → List Char → Option (ScannerS × List Char)
  | 0, _, _ => none
  | fuel + 1, sc, acc =>
    match sc.current with
    | some c => if pyIsAlnum c then getNameLoop fuel (advance sc) (acc ++ [c]) else some (sc, acc)
    | none => some (sc, acc)

/-- `Scanner.get_name`. -/
def getName (fuel : Nat) (sc : ScannerS) : Option (ScannerS × String) :=
  let first : List Char := match sc.current with | some c => [c] | none => []
  match getNameLoop fuel (advance sc) first with
  | some (sc', cs) => some (sc', String.mk cs)
  | none => none

/-- Loop of `Scanner.get_number`. -/
def getNumberLoop : Nat → ScannerS → Nat → Option (ScannerS × Nat)
  | 0, _, _ => none
  | fuel + 1, sc, acc =>
    match sc.current with
    | some c => if pyIsDigit c then getNumberLoop fuel (advance sc) (acc * 10 + pyDigitVal c) else some (sc, acc)
    | none => some (sc, acc)

/-- `Scanner.get_number`. -/
def getNumber (fuel : Nat) (sc : ScannerS) : Option (ScannerS × Nat) :=
  let first : Nat := match sc.current with | some c => pyDigitVal c | none => 0
  getNumberLoop fuel (advance sc) first

/-- `Scanner.check_comment`: advance; if a second backslash follows,
toggle the comment flag (the flag itself is assigned by the caller). -/
def checkComment (sc : ScannerS) : ScannerS × Bool :=
  let sc' := advance sc
  (sc', if sc'.current = some '\\' then !sc'.comment else sc'.comment)

/-- The `while self.comment: ... else: self.skip_spaces()` loop of
`get_symbol`.  The `else` (skip whitespace after the comment) runs when
the loop condition becomes false, not after a `break` at end of file. -/
def commentLoop : Nat → ScannerS → Option ScannerS
  | 0, _ => none
  | fuel + 1, sc =>
    if sc.comment then
      match sc.current with
      | none => some sc
      | some c =>
        let sc1 :=
          if c = '\\' then
            let (t, b) := checkComment sc
            {t with comment := b}
          else sc
        commentLoop fuel (advance sc1)
    else skipSpaces fuel sc

/-! ## `Scanner.print_error` -/

def maxErrorLineLength : Nat := 79

def elisionMark : List Char := ['[', '.', '.', '.', ']']

/-- The long-line elision block of `print_error` (`# shorten output if
line is very long`).  Python computes the drop amount as
`position - (maxlen+1)//2 + 6`; under the guard `position > 35` this
equals `position - 34`, written here as a single saturating subtraction.
Takes the line text and marker position, returns the shown text and the
possibly shifted marker position. -/
def elideStep (lineText : List Char) (position : Nat) : List Char × Nat :=
  if lineText.length > maxErrorLineLength then
    let (lt1, p1) :=
      if position > (maxErrorLineLength + 1) / 2 - 5 then
        (elisionMark ++ lineText.drop (position - ((maxErrorLineLength + 1) / 2 - 6)),
         (maxErrorLineLength - 1) / 2)
      else (lineText, position)
    if lt1.length - p1 > (maxErrorLineLength + 1) / 2 then
      (lt1.take (p1 + maxErrorLineLength / 2 - 4) ++ elisionMark, p1)
    else (lt1, p1)
  else (lineText, position)

/-- The final f-string of `print_error`:
`f"Error on line {line}:\n\n" + line_text + "\n" + " "*position + "^\n\n" + suggestion`. -/
def mkErrOutput (line : Nat) (tp : List Char × Nat) (suggestion : String) : String :=
  "Error on line " ++ toString line ++ ":\n\n" ++ String.mk tp.1 ++ "\n"
    ++ String.mk (List.replicate tp.2 ' ') ++ "^\n\n" ++ suggestion

/-- The pure computation of `Scanner.print_error`: locate the line
containing `symbol.position` via the cumulative line lengths
(`sol_pos_rel_marker`, Python `max` over the non-positive entries,
`np.where` for the first index attaining it), extract the line text from
the re-read file, elide long lines, and format the message. -/
def printErrorStr (src : List Char) (symPos : Option Int) (suggestion : String) : String :=
  let lengths := lineLengths src
  let solPos := solPositions lengths
  let posI : Int := symPos.getD 0
  let solRel : List Int := solPos.map (fun (p : Nat) => (p : Int) - posI)
  let found : List Char × Nat × Nat :=
    if solRel.length = 0 then ([], 0, 1)
    else
      let m := pyMax (solRel.filter (fun x => x ≤ 0))
      let p : Nat := (-m).toNat
      let ln : Nat := solRel.indexOf m + 1
      ((splitNl src).getD (ln - 1) [], p, ln)
  mkErrOutput found.2.2 (elideStep found.1 found.2.1) suggestion

/-- `Scanner.print_error` as a state transformer: it remembers
`file.tell()`, seeks to the start, reads the whole file, and restores the
remembered position before returning, so the net cursor movement is zero.
The formatted message is returned; the caller accounts for the `print`. -/
def printErrorS (sc : ScannerS) (sym : Symbol) (suggestion : String) : ScannerS × String :=
  let currentPosition := sc.tell
  let sc1 := {sc with tell := 0}
  let sc2 := {sc1 with tell := sc1.src.length}
  let out := printErrorStr sc.src sym.position suggestion
  ({sc2 with tell := currentPosition}, out)

/-! ## `Scanner.get_symbol` -/

def mkPunct (t : Nat) (pos : Int) (ch : Char) : Symbol :=
  {type := some t, id := none, position := some pos, string := some (String.singleton ch)}

/-- The dispatch on `self.current_character` after whitespace and comments
have been skipped; `pos` is the recorded `symbol.position`.  The returned
list collects the output of any `print` call (here only the
open-comment-at-EOF diagnostic). -/
def dispatch (fuel : Nat) (sc : ScannerS) (pos : Int) : Option (ScannerS × Symbol × List String) :=
  match sc.current with
  | none =>
    let sym : Symbol := {type := some tyEOF, id := none, position := some pos, string := some ""}
    let sc := advance sc
    if sc.comment then
      some ((printErrorS sc sym "File ended with open comment. Expected '\\\\'").1, sym,
        ["\n\n" ++ (printErrorS sc sym "File ended with open comment. Expected '\\\\'").2])
    else some (sc, sym, [])
  | some ch =>
    if pyIsAlpha ch then
      match getName fuel sc with
      | none => none
      | some (sc, name) =>
        let ty := if name ∈ keywordsList then tyKEYWORD else tyNAME
        some ({sc with names := (pyLookup sc.names name).1},
              {type := some ty, id := some (pyLookup sc.names name).2, position := some pos,
               string := some name}, [])
    else if pyIsDigit ch then
      if pyDigitVal ch = 0 then
        some (advance sc,
              {type := some tyZERO, id := some 0, position := some pos, string := some "0"}, [])
      else
        match getNumber fuel sc with
        | none => none
        | some (sc, n) =>
          some (sc,
                {type := some tyNUMBER, id := some n, position := some pos,
                 string := some (toString n)}, [])
    else if ch = ',' then some (advance sc, mkPunct tyCOMMA pos ch, [])
    else if ch = ';' then some (advance sc, mkPunct tySEMICOLON pos ch, [])
    else if ch = '=' then some (advance sc, mkPunct tyEQUALS pos ch, [])
    else if ch = lbraceChar then some (advance sc, mkPunct tyBRACE_LEFT pos ch, [])
    else if ch = rbraceChar then some (advance sc, mkPunct tyBRACE_RIGHT pos ch, [])
    else if ch = '(' then some (advance sc, mkPunct tyPARENTHESIS_LEFT pos ch, [])
    else if ch = ')' then some (advance sc, mkPunct tyPARENTHESIS_RIGHT pos ch, [])
    else if ch = '>' then some (advance sc, mkPunct tyARROW pos ch, [])
    else if ch = '.' then some (advance sc, mkPunct tyDOT pos ch, [])
    else some (advance sc, mkPunct tyINVALID_CHARACTER pos ch, [])

/-- `Scanner.get_symbol`. -/
def getSymbol (fuel : Nat) (sc : ScannerS) : Option (ScannerS × Symbol × List String) :=
  match skipSpaces fuel sc with
  | none => none
  | some sc =>
    let phase : Option ScannerS :=
      if sc.current = some '\\' then
        let sc1 : ScannerS := {(checkComment sc).1 with comment := (checkComment sc).2}
        let sc2 := if !sc1.comment then backwards sc1 else sc1
        commentLoop fuel sc2
      else some sc
    match phase with
    | none => none
    | some sc => dispatch fuel sc sc.filePos

/-- `Scanner.__init__` on a fresh `Names` table: intern the keyword list,
read the first character (`tell` moves, `file_position` stays 0). -/
def initScanner (src : List Char) : ScannerS :=
  let names0 := (pyLookupList [] keywordsList).1
  let sc0 : ScannerS :=
    {src := src, tell := 0, filePos := 0, current := none, comment := false, names := names0}
  let (sc1, c) := read1 sc0
  {sc1 with current := c}

/-! ## The abstract Devices/Network/Monitors collaborators

`devices.py`, `network.py` and `monitors.py` are not in the source tree.
Every builder call the parser issues is recorded as a `DEvent`; the
return values of `make_connection`, `make_monitor` and `check_network`
are supplied by an arbitrary deterministic oracle that may inspect the
call history, so theorems quantified over `Collab` hold for every
deterministic behaviour of those collaborators. -/

inductive GateKind where
  | AND | NAND | OR | NOR | XOR | NOT
deriving Repr, DecidableEq

inductive DEvent where
  | mkClock (dev : Nat) (halfPeriod : Option Nat)
  | mkSwitch (dev : Nat) (state : Option Nat)
  | mkGate (dev : Nat) (kind : GateKind) (inputs : Option Nat)
  | mkDType (dev : Nat)
  | mkConnection (outDev outPin inDev inPin : Option Nat)
  | mkMonitor (dev pin : Option Nat)
deriving Repr, DecidableEq

/-- The error codes `network.make_connection` can return besides
`NO_ERROR` (the oracle also supplies `error_message[error]`). -/
inductive NetErrCode where
  | inputConnected | outputToOutput | deviceAbsent1 | deviceAbsent2
  | portAbsent1 | portAbsent2
deriving Repr, DecidableEq

structure Collab where
  connErr : List DEvent → Option Nat → Option Nat → Option Nat → Option Nat →
    Option (NetErrCode × String)
  monErr : List DEvent → Option Nat → Option Nat → Option String
  checkNet : List DEvent → String

def trivCollab : Collab :=
  {connErr := fun _ _ _ _ _ => none, monErr := fun _ _ _ => none, checkNet := fun _ => ""}

/-! ## Parser state (`parse.Parser`)

`stdout` collects the payload of every `print` call, newest first.
`events` collects the `make_*` calls, oldest first. -/

structure PState where
  sc : ScannerS
  symbol : Symbol
  error_ : Bool
  errorCount : Nat
  skip : Bool
  curAttribute : Option Nat
  errorMsg : String
  curDeviceNameList : List Symbol
  curPinNameList : List Symbol
  events : List DEvent
  stdout : List String
deriving Repr

/-- `self.symbol = self.scanner.get_symbol()`. -/
def parserGetSym (fuel : Nat) (s : PState) : Option PState :=
  match getSymbol fuel s.sc with
  | some (sc', sym, pr) => some {s with sc := sc', symbol := sym, stdout := pr ++ s.stdout}
  | none => none

/-- The resynchronization loop of `Parser.__error`: consume symbols until
the current one's spelling equals the stopping symbol or is EOF. -/
def errorResync (fuel : Nat) (stp : String) (s : PState) : Option PState :=
  match fuel with
  | 0 => none
  | f + 1 =>
    if s.symbol.string ≠ some stp ∧ s.symbol.type ≠ some tyEOF then
      match parserGetSym f s with
      | some s' => errorResync f stp s'
      | none => none
    else some s

/-- The first half of `Parser.__error`: set the error flag, bump the
counter, call `print_error` (whose output goes to standard output);
returns the updated state and the formatted excerpt. -/
def errorCore (msg : String) (symOpt : Option Symbol) (s : PState) : PState × String :=
  let sym := symOpt.getD s.symbol
  let s1 := {s with error_ := true, errorCount := s.errorCount + 1}
  let (sc', out) := printErrorS s1.sc sym msg
  ({s1 with sc := sc', stdout := ("\n\n" ++ out) :: s1.stdout}, out)

/-- `Parser.__error`: the core above, then resynchronize when a stopping
symbol is given, then append the excerpt to the accumulated error text. -/
def errorFn (fuel : Nat) (msg : String) (stop : Option String) (symOpt : Option Symbol)
    (s : PState) : Option PState :=
  let (s2, out) := errorCore msg symOpt s
  match stop with
  | none => some {s2 with errorMsg := s2.errorMsg ++ ("\n\n" ++ out)}
  | some stp =>
    match errorResync fuel stp s2 with
    | some s3 => some {s3 with errorMsg := s3.errorMsg ++ ("\n\n" ++ out)}
    | none => none

inductive NKind where
  | device | pin
deriving Repr, DecidableEq

def msgKeywordName : String :=
  "Names cannot be Keywords: 'CIRCUIT', 'DEVICES', 'CONNECT', 'MONITOR', 'END','CLOCK', 'SWITCH', 'AND', 'NAND', 'OR', 'NOR', 'XOR', 'NOT', 'DTYPE'"

def msgKeywordDevice : String :=
  "Device names cannot be Keywords: 'CIRCUIT', 'DEVICES', 'CONNECT', 'MONITOR', 'END','CLOCK', 'SWITCH', 'AND', 'NAND', 'OR', 'NOR', 'XOR', 'NOT' 'DTYPE'"

/-- `Parser.__name` (and through it `__devicename`/`__pinname`).  Python
returns `True`, `False` or falls through with `None`; only truthiness is
ever consumed, so the result is a `Bool`. -/
def nameFn (fuel : Nat) (kind : NKind) (s : PState) : Option (PState × Bool) :=
  if s.symbol.type = some tyNAME then
    let s :=
      match kind with
      | .device =>
        if !s.error_ then {s with curDeviceNameList := s.curDeviceNameList ++ [s.symbol]} else s
      | .pin =>
        if !s.error_ then {s with curPinNameList := s.curPinNameList ++ [s.symbol]} else s
    match parserGetSym fuel s with
    | some s' => some (s', true)
    | none => none
  else if s.symbol.type = some tyKEYWORD then
    match errorFn fuel msgKeywordName (some ";") none s with
    | some s' => some (s', false)
    | none => none
  else
    let msg :=
      match kind with
      | .device => "Device names must start with a letter and be alphanumeric"
      | .pin => "Pin names must start with a letter and be alphanumeric"
    match errorFn fuel msg (some ";") none s with
    | some s' => some (s', false)
    | none => none

def devicenameFn (fuel : Nat) (s : PState) : Option (PState × Bool) :=
  nameFn fuel .device s

def pinnameFn (fuel : Nat) (s : PState) : Option (PState × Bool) :=
  nameFn fuel .pin s

/-- The `if not self.skip: ... expect ')' ...` tail shared by
`Parser.__clock` and the gate-parameter methods (the code is textually
identical in all of them). -/
def rightParenStep (fuel : Nat) (s : PState) : Option PState :=
  if !s.skip then
    match parserGetSym fuel s with
    | none => none
    | some s =>
      if s.symbol.type = some tyPARENTHESIS_RIGHT then parserGetSym fuel s
      else errorFn fuel "Expected ')'" (some ";") none s
  else some s

/-- The half-period range check of `Parser.__clock`. -/
def clockStep1 (fuel : Nat) (num : Nat) (s : PState) : Option PState :=
  if num ≤ 0 then
    match errorFn fuel "Clock half period must be greater than 0" (some ";") none s with
    | some t => some {t with skip := true}
    | none => none
  else some s

/-- `Parser.__clock`. -/
def clockFn (fuel : Nat) (s : PState) : Option PState :=
  if s.symbol.type = some tyPARENTHESIS_LEFT then
    match parserGetSym fuel s with
    | none => none
    | some s =>
      if s.symbol.type = some tyNUMBER then
        let num := pyStrToNat s.symbol.string
        match clockStep1 fuel num s with
        | none => none
        | some s =>
          match rightParenStep fuel (if !s.error_ then {s with curAttribute := some num} else s) with
          | none => none
          | some s => some {s with skip := false}
      else
        errorFn fuel
          "Expected a number n > 0, the number of simulation cycles after which the state changes"
          (some ";") none s
  else errorFn fuel "Expected '('" (some ";") none s

/-- `Parser.__switch`.  Note that the code accepts the parameter iff the
symbol's `id` attribute equals 0 or 1, whatever its type. -/
def switchFn (fuel : Nat) (s : PState) : Option PState :=
  if s.symbol.type = some tyPARENTHESIS_LEFT then
    match parserGetSym fuel s with
    | none => none
    | some s =>
      if s.symbol.id = some 0 ∨ s.symbol.id = some 1 then
        let s := if !s.error_ then {s with curAttribute := s.symbol.id} else s
        match parserGetSym fuel s with
        | none => none
        | some s =>
          if s.symbol.type = some tyPARENTHESIS_RIGHT then parserGetSym fuel s
          else errorFn fuel "Expected ')'" (some ";") none s
      else errorFn fuel "Expected state, either 0(OFF) or 1(ON)" (some ";") none s
  else errorFn fuel "Expected '('" (some ";") none s

/-- The inputs range check shared by the gate-parameter methods. -/
def gateStep1 (fuel : Nat) (num : Nat) (s : PState) : Option PState :=
  if !(0 < num ∧ num ≤ 16) then
    errorFn fuel "Number of inputs must be between 1-16" (some ";") none
      {s with skip := true}
  else some s

/-- Common body of `Parser.__And`, `__nand`, `__nor` and `__oor` (they are
textually identical up to the missing-parameter message). -/
def gateParamFn (fuel : Nat) (missingMsg : String) (s : PState) : Option PState :=
  if s.symbol.type = some tyPARENTHESIS_LEFT then
    match parserGetSym fuel s with
    | none => none
    | some s =>
      if s.symbol.type = some tyNUMBER then
        let num := pyStrToNat s.symbol.string
        match gateStep1 fuel num s with
        | none => none
        | some s =>
          match rightParenStep fuel (if !s.error_ then {s with curAttribute := some num} else s) with
          | none => none
          | some s => some {s with skip := false}
      else errorFn fuel missingMsg (some ";") none s
  else errorFn fuel "Expected '('" (some ";") none s

def andFn (fuel : Nat) (s : PState) : Option PState :=
  gateParamFn fuel "Expected number of inputs for AND gate (valid range: 1-16)" s

def nandFn (fuel : Nat) (s : PState) : Option PState :=
  gateParamFn fuel "Expected number of inputs for NAND gate (valid range: 1-16)" s

def norFn (fuel : Nat) (s : PState) : Option PState :=
  gateParamFn fuel "Expected number of inputs for NOR gate (valid range: 1-16)" s

def oorFn (fuel : Nat) (s : PState) : Option PState :=
  gateParamFn fuel "Expected number of inputs for OR gate (valid range: 1-16)" s

/-- The `if not self.error_: device_ids = names.lookup(...); for ... make_*`
block shared by every device branch of `Parser.__device`. -/
def makeDevs (mk : Nat → DEvent) (s : PState) : PState :=
  if !s.error_ then
    let strs := s.curDeviceNameList.map (fun d => d.string.getD "")
    let (names', ids) := pyLookupList s.sc.names strs
    {s with sc := {s.sc with names := names'}, events := s.events ++ ids.map mk}
  else s

/-- The `elif` chain on the device kind in `Parser.__device`
(lines 185-318), entered after `=` has been consumed. -/
def deviceKinds (fuel : Nat) (s : PState) : Option PState :=
  if s.symbol.id = some kwCLOCK then
    match parserGetSym fuel s with
    | none => none
    | some s =>
      match clockFn fuel s with
      | none => none
      | some s => some (makeDevs (fun i => .mkClock i s.curAttribute) s)
  else if s.symbol.id = some kwSWITCH then
    match parserGetSym fuel s with
    | none => none
    | some s =>
      match switchFn fuel s with
      | none => none
      | some s => some (makeDevs (fun i => .mkSwitch i s.curAttribute) s)
  else if s.symbol.id = some kwAND then
    match parserGetSym fuel s with
    | none => none
    | some s =>
      match andFn fuel s with
      | none => none
      | some s => some (makeDevs (fun i => .mkGate i .AND s.curAttribute) s)
  else if s.symbol.id = some kwNAND then
    match parserGetSym fuel s with
    | none => none
    | some s =>
      match nandFn fuel s with
      | none => none
      | some s => some (makeDevs (fun i => .mkGate i .NAND s.curAttribute) s)
  else if s.symbol.id = some kwOR then
    match parserGetSym fuel s with
    | none => none
    | some s =>
      match oorFn fuel s with
      | none => none
      | some s => some (makeDevs (fun i => .mkGate i .OR s.curAttribute) s)
  else if s.symbol.id = some kwNOR then
    match parserGetSym fuel s with
    | none => none
    | some s =>
      match norFn fuel s with
      | none => none
      | some s => some (makeDevs (fun i => .mkGate i .NOR s.curAttribute) s)
  else if s.symbol.id = some kwDTYPE then
    match parserGetSym fuel s with
    | none => none
    | some s => some (makeDevs (fun i => .mkDType i) s)
  else if s.symbol.id = some kwXOR then
    match parserGetSym fuel s with
    | none => none
    | some s => some (makeDevs (fun i => .mkGate i .XOR (some 2)) s)
  else if s.symbol.id = some kwNOT then
    match parserGetSym fuel s with
    | none => none
    | some s => some (makeDevs (fun i => .mkGate i .NOT (some 1)) s)
  else
    errorFn fuel
      "Not a supported device, supported devices: CLOCK, SWITCH, AND, NAND, OR, NOR, DTYPE, XOR, NOT"
      (some ";") none s

/-- The comma loop of `Parser.__device`; returns the final
`valid_device_list`. -/
def deviceCommaLoop : Nat → PState → Option (PState × Bool)
  | 0, _ => none
  | fuel + 1, s =>
    if s.symbol.type = some tyCOMMA ∧ s.symbol.type ≠ some tyEOF then
      match parserGetSym fuel s with
      | none => none
      | some s =>
        match devicenameFn fuel s with
        | none => none
        | some (s, valid) =>
          if valid then deviceCommaLoop fuel s else some (s, false)
    else some (s, true)

/-- The `= <device kind>` tail of `Parser.__device`, entered with the
result of the comma loop. -/
def deviceAfterNames (fuel : Nat) (ok : Bool) (s : PState) : Option PState :=
  if ok then
    match deviceCommaLoop fuel s with
    | none => none
    | some (s, valid) =>
      if valid then
        if s.symbol.type = some tyEQUALS then
          match parserGetSym fuel s with
          | none => none
          | some s => deviceKinds fuel s
        else errorFn fuel "Expected '=' or ','" (some ";") none s
      else some s
  else some s

/-- `Parser.__device`. -/
def deviceFn (fuel : Nat) (s : PState) : Option PState :=
  let s := {s with curDeviceNameList := []}
  match devicenameFn fuel s with
  | none => none
  | some (s, ok) =>
    match deviceAfterNames fuel ok s with
    | none => none
    | some s =>
      if s.symbol.type = some tySEMICOLON then parserGetSym fuel s
      else errorFn fuel "Expected ';'" none none s

/-- The `while` loop of `Parser.__devicelist` (with the `CONNECT`
missing-brace lookahead); returns the final `right_brace`. -/
def devicelistLoop : Nat → PState → Option (PState × Bool)
  | 0, _ => none
  | fuel + 1, s =>
    if s.symbol.type ≠ some tyBRACE_RIGHT ∧ s.symbol.type ≠ some tyEOF then
      if s.symbol.id = some kwCONNECT then
        match getSymbol fuel s.sc with
        | none => none
        | some (sc', chk, pr) =>
          let s := {s with sc := sc', stdout := pr ++ s.stdout}
          if chk.type = some tyBRACE_LEFT then
            match errorFn fuel "Expected '\x7d'" none none {s with skip := true} with
            | none => none
            | some s => some ({s with symbol := chk}, false)
          else
            match errorFn fuel msgKeywordDevice (some ";") none s with
            | none => none
            | some s =>
              match parserGetSym fuel s with
              | none => none
              | some s =>
                match deviceFn fuel s with
                | none => none
                | some s => devicelistLoop fuel s
      else
        match deviceFn fuel s with
        | none => none
        | some s => devicelistLoop fuel s
    else some (s, true)

/-- The opening `DEVICES` check of `Parser.__devicelist`. -/
def devicesKeywordStep (fuel : Nat) (s : PState) : Option PState :=
  if s.symbol.type = some tyKEYWORD ∧ s.symbol.id = some kwDEVICES then parserGetSym fuel s
  else errorFn fuel "Expected 'DEVICES'" (some "\x7b") none s

/-- The `expect left brace` step shared by the list methods. -/
def braceLeftStep (fuel : Nat) (s : PState) : Option PState :=
  if s.symbol.type = some tyBRACE_LEFT then parserGetSym fuel s
  else errorFn fuel "Expected '\x7b'" none none s

/-- `Parser.__devicelist`. -/
def devicelistFn (fuel : Nat) (s : PState) : Option PState :=
  match devicesKeywordStep fuel s with
  | none => none
  | some s =>
    match braceLeftStep fuel s with
    | none => none
    | some s =>
      match deviceFn fuel s with
      | none => none
      | some s =>
        match devicelistLoop fuel s with
        | none => none
        | some (s, rightBrace) =>
          if rightBrace then parserGetSym fuel s else some s

/-- `Parser.__point`.  A point without a `.pin` part appends an artificial
symbol whose `string` is `None` to the pin-name list (unconditionally, as
in the source). -/
def pointFn (fuel : Nat) (s : PState) : Option (PState × Bool) :=
  match devicenameFn fuel s with
  | none => none
  | some (s, ok) =>
    if ok then
      if s.symbol.type = some tyDOT then
        match parserGetSym fuel s with
        | none => none
        | some s => pinnameFn fuel s
      else some ({s with curPinNameList := s.curPinNameList ++ [defaultSymbol]}, true)
    else some (s, false)

/-- The comma loop over destination points in `Parser.__con`. -/
def conCommaLoop : Nat → PState → Option PState
  | 0, _ => none
  | fuel + 1, s =>
    if s.symbol.type = some tyCOMMA ∧ s.symbol.type ≠ some tyEOF then
      match parserGetSym fuel s with
      | none => none
      | some s =>
        match pointFn fuel s with
        | none => none
        | some (s, _) => conCommaLoop fuel s
    else some s

/-- The `for i in range(len(cur_in_device_ids))` loop of `Parser.__con`:
call `make_connection` for each destination, mapping a returned error
code to a diagnostic anchored at the appropriate symbol and stopping at
the first error. -/
def connLoop (fuel : Nat) (c : Collab) (outDevId outPinId : Option Nat)
    (outDevSym outPinSym curArrow : Symbol) :
    List (Option Nat × Symbol) → List (Option Nat × Symbol) → PState → Option PState
  | [], _, s => some s
  | (devId, devSym) :: restDev, pins, s =>
    let (pinId, pinSym) := pins.headD (none, defaultSymbol)
    let res := c.connErr s.events outDevId outPinId devId pinId
    let s := {s with events := s.events ++ [.mkConnection outDevId outPinId devId pinId]}
    match res with
    | none =>
      connLoop fuel c outDevId outPinId outDevSym outPinSym curArrow restDev pins.tail s
    | some (code, msg) =>
      match code with
      | .inputConnected => errorFn fuel msg none (some pinSym) s
      | .portAbsent2 => errorFn fuel msg none (some pinSym) s
      | .deviceAbsent2 => errorFn fuel msg none (some devSym) s
      | .deviceAbsent1 => errorFn fuel msg none (some outDevSym) s
      | .portAbsent1 => errorFn fuel msg none (some outPinSym) s
      | .outputToOutput => errorFn fuel msg none (some curArrow) s

/-- The `if not self.error_:` block of `Parser.__con` that resolves the
output point's IDs and clears the name lists. -/
def conOuts (s : PState) : PState × Option (Symbol × Symbol × Option Nat × Option Nat) :=
  if !s.error_ then
    let odS := s.curDeviceNameList.getD 0 defaultSymbol
    let opS := s.curPinNameList.getD 0 defaultSymbol
    let odI := pyQuery s.sc.names odS.string
    let opI := pyQuery s.sc.names opS.string
    ({s with curDeviceNameList := [], curPinNameList := []}, some (odS, opS, odI, opI))
  else (s, none)

/-- The terminator lookahead after the destination list in `Parser.__con`. -/
def conChecked (fuel : Nat) (s : PState) : Option PState :=
  if s.symbol.type ≠ some tySEMICOLON then
    if s.symbol.type = some tyBRACE_RIGHT then
      errorFn fuel "Expected ';'" none none {s with skip := true}
    else errorFn fuel "Expected '.' or ',' or ';'" (some ";") none s
  else some s

/-- The arrow-and-destinations part of `Parser.__con`, entered with the
result of the first `__point` call. -/
def conAfterPoint (fuel : Nat) (ok : Bool) (s : PState) :
    Option (PState × Option (Symbol × Symbol × Option Nat × Option Nat) × Option Symbol) :=
  if ok then
    match conOuts s with
    | (s, outs) =>
      if s.symbol.type = some tyARROW then
        let arrow := s.symbol
        match parserGetSym fuel s with
        | none => none
        | some s =>
          match pointFn fuel s with
          | none => none
          | some (s, _) =>
            match conCommaLoop fuel s with
            | none => none
            | some s =>
              match conChecked fuel s with
              | none => none
              | some s => some (s, outs, some arrow)
      else
        match errorFn fuel "Expected '>'" (some ";") none s with
        | none => none
        | some s => some (s, outs, none)
  else some (s, none, none)

/-- The `if not self.error_:` block of `Parser.__con` that issues the
`make_connection` calls. -/
def conConnected (fuel : Nat) (c : Collab)
    (outs : Option (Symbol × Symbol × Option Nat × Option Nat)) (arrowOpt : Option Symbol)
    (s : PState) : Option PState :=
  if !s.error_ then
    let inDevs := s.curDeviceNameList.map (fun d => (pyQuery s.sc.names d.string, d))
    let inPins := s.curPinNameList.map (fun d => (pyQuery s.sc.names d.string, d))
    let (odS, opS, odI, opI) := outs.getD (defaultSymbol, defaultSymbol, none, none)
    connLoop fuel c odI opI odS opS (arrowOpt.getD defaultSymbol) inDevs inPins s
  else some s

/-- The closing skip-guarded `;` check of `Parser.__con`. -/
def conFinal (fuel : Nat) (s : PState) : Option PState :=
  if !s.skip then
    if s.symbol.type = some tySEMICOLON then parserGetSym fuel s
    else errorFn fuel "Expected ';'" none none s
  else some s

/-- `Parser.__con`.  The local variables `out_device_sym`, `out_pin_sym`,
`out_device_id`, `out_pin_id` and `cur_arrow` are threaded as `Option`
values; they are only ever read on paths on which the source has assigned
them (list accesses that would raise `IndexError` in Python are modelled
by `getD defaultSymbol` and are likewise unreachable). -/
def conFn (fuel : Nat) (c : Collab) (s : PState) : Option PState :=
  let s := {s with curDeviceNameList := [], curPinNameList := []}
  match pointFn fuel s with
  | none => none
  | some (s, ok) =>
    match conAfterPoint fuel ok s with
    | none => none
    | some (s, outs, arrowOpt) =>
      match conConnected fuel c outs arrowOpt s with
      | none => none
      | some s =>
        match conFinal fuel s with
        | none => none
        | some s => some {s with skip := false}

/-- The `while` loop of `Parser.__connectionlist` (with the `MONITOR`
missing-brace lookahead); returns the final `right_brace`. -/
def connectionlistLoop : Nat → Collab → PState → Option (PState × Bool)
  | 0, _, _ => none
  | fuel + 1, c, s =>
    if s.symbol.type ≠ some tyBRACE_RIGHT ∧ s.symbol.type ≠ some tyEOF then
      if s.symbol.id = some kwMONITOR then
        match getSymbol fuel s.sc with
        | none => none
        | some (sc', chk, pr) =>
          let s := {s with sc := sc', stdout := pr ++ s.stdout}
          if chk.type = some tyBRACE_LEFT then
            match errorFn fuel "Expected '\x7d'" none none {s with skip := true} with
            | none => none
            | some s => some ({s with symbol := chk}, false)
          else
            match errorFn fuel msgKeywordDevice (some ";") none s with
            | none => none
            | some s =>
              match parserGetSym fuel s with
              | none => none
              | some s =>
                match conFn fuel c s with
                | none => none
                | some s => connectionlistLoop fuel c s
      else
        match conFn fuel c s with
        | none => none
        | some s => connectionlistLoop fuel c s
    else some (s, true)

/-- The skip-guarded opening `CONNECT` check of `Parser.__connectionlist`. -/
def connectKeywordStep (fuel : Nat) (s : PState) : Option PState :=
  if !s.skip then
    if s.symbol.type = some tyKEYWORD ∧ s.symbol.id = some kwCONNECT then parserGetSym fuel s
    else errorFn fuel "Expected 'CONNECT'" (some "\x7b") none s
  else some s

/-- The `check_network` call at the end of `Parser.__connectionlist`. -/
def connectCheck (fuel : Nat) (c : Collab) (connectSymbol : Symbol) (s : PState) :
    Option PState :=
  if !s.error_ then
    let unconnected := c.checkNet s.events
    if unconnected ≠ "" then
      errorFn fuel ("unconnected inputs: " ++ unconnected) none (some connectSymbol) s
    else some s
  else some s

/-- `Parser.__connectionlist`. -/
def connectionlistFn (fuel : Nat) (c : Collab) (s : PState) : Option PState :=
  let connectSymbol := s.symbol
  match connectKeywordStep fuel s with
  | none => none
  | some s =>
    match braceLeftStep fuel {s with skip := false} with
    | none => none
    | some s =>
      match conFn fuel c s with
      | none => none
      | some s =>
        match connectionlistLoop fuel c s with
        | none => none
        | some (s, rightBrace) =>
          match connectCheck fuel c connectSymbol s with
          | none => none
          | some s => if rightBrace then parserGetSym fuel s else some s

/-- The `if not self.error_:` block of `Parser.__monitor` that issues the
`make_monitor` call. -/
def monitorMake (fuel : Nat) (c : Collab) (s : PState) : Option PState :=
  if !s.error_ then
    let d := pyQuery s.sc.names ((s.curDeviceNameList.getD 0 defaultSymbol).string)
    let p := pyQuery s.sc.names ((s.curPinNameList.getD 0 defaultSymbol).string)
    let res := c.monErr s.events d p
    let s := {s with events := s.events ++ [.mkMonitor d p]}
    match res with
    | some msg => errorFn fuel msg none none s
    | none => some s
  else some s

/-- `Parser.__monitor`. -/
def monitorFn (fuel : Nat) (c : Collab) (s : PState) : Option PState :=
  let s := {s with curDeviceNameList := [], curPinNameList := []}
  match pointFn fuel s with
  | none => none
  | some (s, _) =>
    match monitorMake fuel c s with
    | none => none
    | some s =>
      if s.symbol.type = some tySEMICOLON then parserGetSym fuel s
      else errorFn fuel "Expected ';'" none none s

/-- The `while` loop of `Parser.__monitorlist` (with the `END`
missing-brace lookahead); returns the final `right_brace`. -/
def monitorlistLoop : Nat → Collab → PState → Option (PState × Bool)
  | 0, _, _ => none
  | fuel + 1, c, s =>
    if s.symbol.type ≠ some tyBRACE_RIGHT ∧ s.symbol.type ≠ some tyEOF then
      if s.symbol.id = some kwEND then
        match errorFn fuel "Expected '\x7d'" none none s with
        | none => none
        | some s => some (s, false)
      else
        match monitorFn fuel c s with
        | none => none
        | some s => monitorlistLoop fuel c s
    else some (s, true)

/-- The skip-guarded opening `MONITOR` check of `Parser.__monitorlist`. -/
def monitorKeywordStep (fuel : Nat) (s : PState) : Option PState :=
  if !s.skip then
    if s.symbol.type = some tyKEYWORD ∧ s.symbol.id = some kwMONITOR then parserGetSym fuel s
    else errorFn fuel "Expected 'MONITOR'" (some "\x7b") none s
  else some s

/-- `Parser.__monitorlist`. -/
def monitorlistFn (fuel : Nat) (c : Collab) (s : PState) : Option PState :=
  match monitorKeywordStep fuel s with
  | none => none
  | some s =>
    let s := {s with skip := false}
    if s.symbol.type = some tyBRACE_LEFT then
      match parserGetSym fuel s with
      | none => none
      | some s =>
        match monitorFn fuel c s with
        | none => none
        | some s =>
          match monitorlistLoop fuel c s with
          | none => none
          | some (s, rightBrace) =>
            if rightBrace then parserGetSym fuel s else some s
    else errorFn fuel "Expected '\x7b'" none none s

/-- The opening `CIRCUIT` check of `Parser.__circuit`. -/
def circuitKeywordStep (fuel : Nat) (s : PState) : Option PState :=
  if s.symbol.type = some tyKEYWORD ∧ s.symbol.id = some kwCIRCUIT then parserGetSym fuel s
  else errorFn fuel "Expected 'CIRCUIT'" (some "\x7b") none s

/-- `Parser.__circuit`. -/
def circuitFn (fuel : Nat) (c : Collab) (s : PState) : Option PState :=
  match circuitKeywordStep fuel s with
  | none => none
  | some s =>
    match braceLeftStep fuel s with
    | none => none
    | some s =>
      match devicelistFn fuel s with
      | none => none
      | some s =>
        match connectionlistFn fuel c s with
        | none => none
        | some s =>
          match monitorlistFn fuel c s with
          | none => none
          | some s =>
            if s.symbol.type = some tyBRACE_RIGHT then parserGetSym fuel s
            else errorFn fuel "Expected '\x7d'" none none s

/-- The closing `END` check of `Parser.parse_network`. -/
def endKeywordStep (fuel : Nat) (s : PState) : Option PState :=
  if s.symbol.type = some tyKEYWORD ∧ s.symbol.id = some kwEND then parserGetSym fuel s
  else errorFn fuel "Expected 'END'" (some ";") none s

/-- `Parser.parse_network`: parse the circuit, check `END`, append
`Error Count: N` to the accumulated error text, print it, and return
`not self.error_`. -/
def parseNetworkFn (fuel : Nat) (c : Collab) (s : PState) : Option (PState × Bool) :=
  match circuitFn fuel c s with
  | none => none
  | some s =>
    match endKeywordStep fuel s with
    | none => none
    | some s =>
      let s :=
        {s with
          errorMsg := s.errorMsg ++ ("\n\n" ++ ("Error Count: " ++ toString s.errorCount)),
          stdout := ("Error Count: " ++ toString s.errorCount) :: s.stdout}
      some (s, !s.error_)

/-- `Parser.__init__` on a freshly constructed scanner: fetch the first
symbol and clear the error state. -/
def initParserSt (fuel : Nat) (src : List Char) : Option PState :=
  match getSymbol fuel (initScanner src) with
  | some (sc', sym, pr) =>
    some
      {sc := sc', symbol := sym, error_ := false, errorCount := 0, skip := false,
       curAttribute := none, errorMsg := "", curDeviceNameList := [], curPinNameList := [],
       events := [], stdout := pr}
  | none => none

/-! ## Basic preservation lemmas -/

theorem parserGetSym_fields {fuel : Nat} {s s' : PState} (h : parserGetSym fuel s = some s') :
    s'.error_ = s.error_ ∧ s'.errorCount = s.errorCount ∧ s'.events = s.events ∧
      s'.skip = s.skip ∧ s'.curAttribute = s.curAttribute ∧ s'.errorMsg = s.errorMsg ∧
      s'.curDeviceNameList = s.curDeviceNameList ∧ s'.curPinNameList = s.curPinNameList := by
  unfold parserGetSym at h
  cases hg : getSymbol fuel s.sc with
  | none => rw [hg] at h; exact absurd h (by simp)
  | some p =>
    rw [hg] at h
    obtain ⟨sc', sym, pr⟩ := p
    simp only [Option.some.injEq] at h
    subst h
    simp

/-- The resynchronization loop stops at the stopping symbol or EOF and
touches nothing but the scanner position and current symbol. -/
theorem errorResync_post {fuel : Nat} {stp : String} {s s' : PState}
    (h : errorResync fuel stp s = some s') :
    (s'.symbol.string = some stp ∨ s'.symbol.type = some tyEOF) ∧
      s'.errorCount = s.errorCount ∧ s'.error_ = s.error_ ∧ s'.events = s.events ∧
      s'.errorMsg = s.errorMsg ∧ s'.skip = s.skip ∧ s'.curAttribute = s.curAttribute ∧
      s'.curDeviceNameList = s.curDeviceNameList ∧ s'.curPinNameList = s.curPinNameList := by
  induction fuel generalizing s with
  | zero => exact absurd h (by simp [errorResync])
  | succ f ih =>
    unfold errorResync at h
    by_cases hc : s.symbol.string ≠ some stp ∧ s.symbol.type ≠ some tyEOF
    · rw [if_pos hc] at h
      cases hg : parserGetSym f s with
      | none => rw [hg] at h; exact absurd h (by simp)
      | some s1 =>
        rw [hg] at h
        have hf := parserGetSym_fields hg
        have hr := ih h
        obtain ⟨e1, e2, e3, e4, e5, e6, e7, e8⟩ := hf
        obtain ⟨t1, t2, t3, t4, t5, t6, t7, t8, t9⟩ := hr
        exact ⟨t1, by rw [t2, e2], by rw [t3, e1], by rw [t4, e3], by rw [t5, e6],
          by rw [t6, e4], by rw [t7, e5], by rw [t8, e7], by rw [t9, e8]⟩
    · rw [if_neg hc] at h
      simp only [Option.some.injEq] at h
      subst h
      refine ⟨?_, rfl, rfl, rfl, rfl, rfl, rfl, rfl, rfl⟩
      rcases not_and_or.mp hc with h1 | h2
      · exact Or.inl (not_not.mp h1)
      · exact Or.inr (not_not.mp h2)

/-- If the current symbol already matches the stopping condition, the
resynchronization loop does not advance at all. -/
theorem errorResync_noop {fuel : Nat} {stp : String} {s s' : PState}
    (h : errorResync fuel stp s = some s')
    (hc : s.symbol.string = some stp ∨ s.symbol.type = some tyEOF) : s' = s := by
  cases fuel with
  | zero => exact absurd h (by simp [errorResync])
  | succ f =>
    unfold errorResync at h
    have : ¬(s.symbol.string ≠ some stp ∧ s.symbol.type ≠ some tyEOF) := by
      rcases hc with h1 | h2
      · exact fun hx => hx.1 h1
      · exact fun hx => hx.2 h2
    rw [if_neg this] at h
    simpa using h.symm

theorem errorCore_fields (msg : String) (symOpt : Option Symbol) (s : PState) :
    (errorCore msg symOpt s).1.errorCount = s.errorCount + 1 ∧
      (errorCore msg symOpt s).1.symbol = s.symbol ∧
      (errorCore msg symOpt s).1.sc = s.sc ∧
      (errorCore msg symOpt s).1.error_ = true ∧
      (errorCore msg symOpt s).1.events = s.events ∧
      (errorCore msg symOpt s).1.errorMsg = s.errorMsg ∧
      (errorCore msg symOpt s).1.skip = s.skip :=
  ⟨rfl, rfl, rfl, rfl, rfl, rfl, rfl⟩

theorem errorCore_more_fields (msg : String) (symOpt : Option Symbol) (s : PState) :
    (errorCore msg symOpt s).1.curAttribute = s.curAttribute ∧
      (errorCore msg symOpt s).1.curDeviceNameList = s.curDeviceNameList ∧
      (errorCore msg symOpt s).1.curPinNameList = s.curPinNameList ∧
      (errorCore msg symOpt s).2 =
        printErrorStr s.sc.src (symOpt.getD s.symbol).position msg :=
  ⟨rfl, rfl, rfl, rfl⟩

/-- Everything `__error` does to the parser fields other than the scanner
position, the current symbol and standard output: the error flag is set,
the counter is bumped by one, the formatted excerpt (ending with the
message) is appended to the accumulated error text, and nothing else
changes. -/
theorem errorFn_fields {fuel : Nat} {msg : String} {stop : Option String}
    {symOpt : Option Symbol} {s s' : PState} (h : errorFn fuel msg stop symOpt s = some s') :
    s'.error_ = true ∧ s'.errorCount = s.errorCount + 1 ∧ s'.events = s.events ∧
      s'.skip = s.skip ∧ s'.curAttribute = s.curAttribute ∧
      s'.errorMsg = s.errorMsg ++
        ("\n\n" ++ printErrorStr s.sc.src (symOpt.getD s.symbol).position msg) ∧
      s'.curDeviceNameList = s.curDeviceNameList ∧ s'.curPinNameList = s.curPinNameList := by
  unfold errorFn at h
  have hc := errorCore_fields msg symOpt s
  have hc2 := errorCore_more_fields msg symOpt s
  rcases he : errorCore msg symOpt s with ⟨s2, out⟩
  rw [he] at h hc hc2
  simp only at h hc hc2
  cases stop with
  | none =>
    simp only [Option.some.injEq] at h
    subst h
    refine ⟨hc.2.2.2.1, hc.1, hc.2.2.2.2.1, hc.2.2.2.2.2.2, hc2.1, ?_, hc2.2.1, hc2.2.2.1⟩
    rw [hc.2.2.2.2.2.1, hc2.2.2.2]
  | some stp =>
    simp only at h
    cases hr : errorResync fuel stp s2 with
    | none => rw [hr] at h; exact absurd h (by simp)
    | some s3 =>
      rw [hr] at h
      simp only [Option.some.injEq] at h
      subst h
      obtain ⟨t1, t2, t3, t4, t5, t6, t7, t8, t9⟩ := errorResync_post hr
      refine ⟨?_, ?_, ?_, ?_, ?_, ?_, ?_, ?_⟩
      · show s3.error_ = true
        rw [t3, hc.2.2.2.1]
      · show s3.errorCount = s.errorCount + 1
        rw [t2, hc.1]
      · show s3.events = s.events
        rw [t4, hc.2.2.2.2.1]
      · show s3.skip = s.skip
        rw [t6, hc.2.2.2.2.2.2]
      · show s3.curAttribute = s.curAttribute
        rw [t7, hc2.1]
      · show s3.errorMsg ++ ("\n\n" ++ out) = _
        rw [t5, hc.2.2.2.2.2.1, hc2.2.2.2]
      · show s3.curDeviceNameList = s.curDeviceNameList
        rw [t8, hc2.2.1]
      · show s3.curPinNameList = s.curPinNameList
        rw [t9, hc2.2.2.1]

/-! ## Supporting lemmas for the name-table claims -/

/-- `lookup` preserves distinctness of the table entries (it appends a
string only when it is absent), justifying the `Nodup` hypothesis of the
round-trip theorem for every table built by `lookup` calls. -/
theorem myLookup_preserves_nodup (st : MyNames) (s : String) (h : st.names_list.Nodup) :
    (myLookup st s).1.names_list.Nodup := by
  unfold myLookup
  split
  · exact h
  · simpa [List.nodup_append] using ⟨h, by assumption⟩

/-! ## Claim theorems -/

/-- C8: names round-trip.  Looking a string up and asking for the string
of the returned ID yields the string again, and for every issued ID `i`
(a valid index of a duplicate-free table, which `lookup` always
produces), `query (get_name_string i) = i`. -/
theorem names_roundtrip (st : MyNames) (s : String) (i : Nat)
    (hn : st.names_list.Nodup) (hi : i < st.names_list.length) :
    myGetString (myLookup st s).1 (myLookup st s).2 = some s ∧
      Option.bind (myGetString st i) (fun str => myQuery st str) = some i := by
  constructor
  · by_cases hmem : s ∈ st.names_list
    · have he : myLookup st s = (st, st.names_list.indexOf s) := by simp [myLookup, hmem]
      rw [he]
      have hlt : st.names_list.indexOf s < st.names_list.length :=
        List.indexOf_lt_length.mpr hmem
      simp only [myGetString, dif_pos hlt]
      exact congrArg some (List.indexOf_get hlt)
    · have he : myLookup st s = (⟨st.names_list ++ [s]⟩, (st.names_list ++ [s]).length - 1) := by
        simp [myLookup, hmem]
      rw [he]
      have hlt : (st.names_list ++ [s]).length - 1 < (st.names_list ++ [s]).length := by simp
      simp only [myGetString, dif_pos hlt]
      refine congrArg some ?_
      have hidx : (st.names_list ++ [s]).length - 1 = st.names_list.length := by simp
      simp only [List.get_eq_getElem, hidx]
      exact List.getElem_concat_length _ _ _ rfl _
  · have hget : myGetString st i = some st.names_list[i] := by
      simp [myGetString, hi]
    rw [hget]
    have hmem : st.names_list[i] ∈ st.names_list := List.getElem_mem hi
    simp [myQuery, hmem, List.indexOf_getElem hn i hi]

/-- Witness for C8 at a concrete two-entry table. -/
theorem names_roundtrip_witness :
    (["Alice", "Bob"] : List String).Nodup ∧ 1 < 2 ∧
      (myGetString (myLookup ⟨["Alice", "Bob"]⟩ "Eve").1 (myLookup ⟨["Alice", "Bob"]⟩ "Eve").2 =
          some "Eve" ∧
        Option.bind (myGetString ⟨["Alice", "Bob"]⟩ 1) (fun str => myQuery ⟨["Alice", "Bob"]⟩ str) =
          some 1) :=
  ⟨by decide, by decide, names_roundtrip ⟨["Alice", "Bob"]⟩ "Eve" 1 (by decide) (by decide)⟩

/-- C10: `print_error` saves the scanner's read position on entry and
restores it before returning, so its net effect on the scanner state is
the identity, and a `get_symbol` call after it returns exactly what it
would have returned without the interleaved `print_error`. -/
theorem print_error_preserves_scanner_state (sc : ScannerS) (sym : Symbol) (suggestion : String)
    (fuel : Nat) :
    (printErrorS sc sym suggestion).1 = sc ∧
      getSymbol fuel (printErrorS sc sym suggestion).1 = getSymbol fuel sc :=
  ⟨rfl, rfl⟩

/-- C4 (code bug): on the one-character file `\`, the scanner's
lone-backslash INVALID symbol is produced through the `backwards()`
rewind at end of file, and its `position` field is 1 — one past the
backslash, whose first (and only) byte is at offset 0.  `backwards` at
end of file decrements `file_position` by one instead of two before the
compensating `advance`, so the claimed position invariant fails there. -/
theorem lone_backslash_position_off_by_one :
    (getSymbol 20 (initScanner ['\\'])).map (fun p => p.2.1) =
        some {type := some tyINVALID_CHARACTER, id := none, position := some 1, string := some "\\"} ∧
      ['\\'].get? 0 = some '\\' := by
  constructor
  · decide
  · rfl

/-- C5: every call of `__error` increments the error counter by exactly
one; with a null stopping symbol it does not advance the current token or
the scanner; with a non-null stopping symbol it leaves the current token
at one whose spelling equals the stopping symbol or whose kind is EOF,
and does not advance at all when the current token already matches. -/
theorem error_routine_count_and_resync (fuel : Nat) (msg : String) (stop : Option String)
    (symOpt : Option Symbol) (s s' : PState)
    (h : errorFn fuel msg stop symOpt s = some s') :
    s'.errorCount = s.errorCount + 1 ∧
      (stop = none → s'.symbol = s.symbol ∧ s'.sc = s.sc) ∧
      (∀ stp, stop = some stp →
        (s'.symbol.string = some stp ∨ s'.symbol.type = some tyEOF) ∧
        ((s.symbol.string = some stp ∨ s.symbol.type = some tyEOF) →
          s'.symbol = s.symbol ∧ s'.sc = s.sc)) := by
  unfold errorFn at h
  have hc := errorCore_fields msg symOpt s
  rcases he : errorCore msg symOpt s with ⟨s2, out⟩
  rw [he] at h hc
  simp only at h hc
  cases stop with
  | none =>
    simp only [Option.some.injEq] at h
    subst h
    exact ⟨hc.1, fun _ => ⟨hc.2.1, hc.2.2.1⟩, fun stp hstp => absurd hstp (by simp)⟩
  | some stp =>
    simp only at h
    cases hr : errorResync fuel stp s2 with
    | none => rw [hr] at h; exact absurd h (by simp)
    | some s3 =>
      rw [hr] at h
      simp only [Option.some.injEq] at h
      subst h
      have hp := errorResync_post hr
      refine ⟨?_, fun hn => absurd hn (by simp), fun stp1 hstp1 => ?_⟩
      · show s3.errorCount = s.errorCount + 1
        rw [hp.2.1, hc.1]
      · have hst : stp1 = stp := by injection hstp1 with e; exact e.symm
        subst hst
        refine ⟨hp.1, fun hinit => ?_⟩
        have h3 := errorResync_noop hr (by rw [hc.2.1]; exact hinit)
        rw [h3]
        exact ⟨hc.2.1, hc.2.2.1⟩

def c5state : PState :=
  (initParserSt 50 ("a b ; c".data)).get (by decide)

theorem c5run_isSome : (errorFn 50 "m" (some ";") none c5state).isSome := by decide

/-- Witness for C5 on a concrete parser state (current symbol `a`,
resynchronizing to `;`). -/
theorem error_routine_count_and_resync_witness :
    ((errorFn 50 "m" (some ";") none c5state).get c5run_isSome).errorCount =
      c5state.errorCount + 1 :=
  (error_routine_count_and_resync 50 "m" (some ";") none c5state _
    (Option.some_get c5run_isSome).symm).1

/-! ## Line location and elision lemmas for `print_error` (C6, C7) -/


theorem lineLengths_pos (src : List Char) : ∀ x ∈ lineLengths src, 0 < x := by
  intro x hx
  unfold lineLengths at hx
  simp only at hx
  split at hx
  · rcases List.mem_map.mp hx with ⟨p, _, rfl⟩
    omega
  · rcases List.mem_append.mp hx with h | h
    · rcases List.mem_map.mp h with ⟨p, _, rfl⟩
      omega
    · simp only [List.mem_singleton] at h
      subst h
      omega

theorem sumTake_le (L : List Nat) {j i : Nat} (h : j ≤ i) :
    (L.take j).sum ≤ (L.take i).sum := by
  have h1 : (L.take i).take j = L.take j := by
    rw [List.take_take]
    congr 1
    omega
  calc (L.take j).sum = ((L.take i).take j).sum := by rw [h1]
    _ ≤ ((L.take i).take j).sum + ((L.take i).drop j).sum := Nat.le_add_right _ _
    _ = (L.take i).sum := List.sum_take_add_sum_drop _ _

theorem pyMax_spec (l : List Int) (m : Int) (hm : m ∈ l) (hb : ∀ y ∈ l, y ≤ m) :
    pyMax l = m := by
  cases l with
  | nil => exact absurd hm (by simp)
  | cons x xs =>
    have key : ∀ (ys : List Int) (a : Int), (ys.foldl max a ∈ a :: ys) ∧ a ≤ ys.foldl max a ∧
        ∀ y ∈ ys, y ≤ ys.foldl max a := by
      intro ys
      induction ys with
      | nil => intro a; simp
      | cons b bs ih =>
        intro a
        have h1 := ih (max a b)
        refine ⟨?_, ?_, ?_⟩
        · rw [List.foldl_cons]
          rcases List.mem_cons.mp h1.1 with h | h
          · rw [h]
            rcases max_choice a b with hx | hx <;> rw [hx] <;> simp
          · simp [List.mem_cons, h]
        · rw [List.foldl_cons]
          exact le_trans (le_max_left a b) h1.2.1
        · intro y hy
          rw [List.foldl_cons]
          rcases List.mem_cons.mp hy with h2 | h2
          · rw [h2]
            exact le_trans (le_max_right a b) h1.2.1
          · exact h1.2.2 _ h2
    have k := key xs x
    unfold pyMax
    have hmem : xs.foldl max x ∈ x :: xs := k.1
    have hub : ∀ y ∈ x :: xs, y ≤ xs.foldl max x := by
      intro y hy
      rcases List.mem_cons.mp hy with h2 | h2
      · rw [h2]
        exact k.2.1
      · exact k.2.2 _ h2
    exact le_antisymm (hb _ hmem) (hub _ hm)

theorem indexOf_first (l : List Int) (v : Int) (i : Nat) (hi : i < l.length)
    (hv : l[i] = v) (hj : ∀ j (hj2 : j < i), l[j] ≠ v) :
    l.indexOf v = i := by
  induction l generalizing i with
  | nil => simp at hi
  | cons a as ih =>
    cases i with
    | zero =>
      simp only [List.getElem_cons_zero] at hv
      subst hv
      simp [List.indexOf_cons_self]
    | succ n =>
      have ha : a ≠ v := by
        have := hj 0 (Nat.succ_pos n)
        simpa using this
      rw [List.indexOf_cons_ne _ (by exact ha)]
      have := ih n (by simpa using hi) (by simpa using hv) (fun j hjn => by
        have := hj (j+1) (by omega)
        simpa using this)
      omega

theorem solPositions_length (L : List Nat) : (solPositions L).length = L.length := by
  simp [solPositions]

theorem solPositions_getElem (L : List Nat) (j : Nat) (h : j < (solPositions L).length) :
    (solPositions L)[j] = (L.take j).sum := by
  simp [solPositions]

/-- The line/column computation of `print_error` (Python `max` over the
non-positive relative start positions, `np.where` for the line index)
finds exactly the line containing `pos` and the column
`pos - sum_of_previous_line_lengths`. -/
theorem printErrorStr_locates (src : List Char) (pos i : Nat) (sugg : String)
    (h1 : ((lineLengths src).take i).sum ≤ pos)
    (h2 : pos < ((lineLengths src).take (i + 1)).sum) :
    printErrorStr src (some ((pos : Int))) sugg =
      mkErrOutput (i + 1)
        (elideStep ((splitNl src).getD i []) (pos - ((lineLengths src).take i).sum)) sugg := by
  set L := lineLengths src with hL
  have hposL : ∀ x ∈ L, 0 < x := lineLengths_pos src
  -- i is a valid index
  have hlen : i < L.length := by
    by_contra hcon
    push_neg at hcon
    rw [List.take_of_length_le hcon] at h1
    rw [List.take_of_length_le (by omega : L.length ≤ i + 1)] at h2
    omega
  have hlen1 : i + 1 ≤ L.length := hlen
  have hsum_succ : (L.take (i + 1)).sum = (L.take i).sum + L.get ⟨i, hlen⟩ := List.sum_take_succ L i hlen
  -- the solRel list
  set posI : Int := (pos : Int) with hposI
  set solRel : List Int := (solPositions L).map (fun (p : Nat) => (p : Int) - posI) with hsolRel
  have hrelLen : solRel.length = L.length := by
    simp [hsolRel, solPositions_length]
  have hrelGet : ∀ j (hj : j < solRel.length),
      solRel[j] = ((L.take j).sum : Int) - posI := by
    intro j hj
    have hj2 : j < (solPositions L).length := by
      rw [solPositions_length]; omega
    simp only [hsolRel, List.getElem_map]
    rw [solPositions_getElem L j hj2]
  have hne : solRel.length ≠ 0 := by omega
  set m : Int := ((L.take i).sum : Int) - posI with hm
  have hmfilter : m ∈ solRel.filter (fun x => decide (x ≤ 0)) := by
    rw [List.mem_filter]
    constructor
    · have hlt : i < solRel.length := by omega
      have : solRel[i] = m := by rw [hrelGet i (by omega)]
      exact this ▸ List.getElem_mem _
    · simp only [decide_eq_true_eq, hm, hposI]
      omega
  have hbound : ∀ y ∈ solRel.filter (fun x => decide (x ≤ 0)), y ≤ m := by
    intro y hy
    rw [List.mem_filter] at hy
    obtain ⟨hymem, hyle⟩ := hy
    simp only [decide_eq_true_eq] at hyle
    rcases List.mem_iff_getElem.mp hymem with ⟨j, hj, rfl⟩
    rw [hrelGet j hj]
    rw [hrelGet j hj] at hyle
    by_cases hji : j ≤ i
    · have := sumTake_le L hji
      simp only [hm]
      omega
    · exfalso
      push_neg at hji
      have hge : (L.take (i + 1)).sum ≤ (L.take j).sum := sumTake_le L (by omega)
      simp only [hposI] at hyle
      omega
  have hmax : pyMax (solRel.filter (fun x => decide (x ≤ 0))) = m :=
    pyMax_spec _ _ hmfilter hbound
  -- first index attaining m is i
  have hidx : solRel.indexOf m = i := by
    refine indexOf_first solRel m i (by omega) (by rw [hrelGet i (by omega)]) ?_
    intro j hji
    rw [hrelGet j (by omega)]
    have hjlt : (L.take (j + 1)).sum ≤ (L.take i).sum := sumTake_le L (by omega)
    have hstrict : (L.take j).sum < (L.take (j + 1)).sum := by
      have := List.sum_take_succ L j (by omega)
      have hjL : j < L.length := by omega
      have hpos := hposL L[j] (List.getElem_mem _)
      omega
    simp only [hm]
    omega
  -- now unfold printErrorStr
  have hp : (-m).toNat = pos - (L.take i).sum := by
    simp only [hm, hposI]
    omega
  unfold printErrorStr
  simp only [Option.getD_some]
  rw [← hL]
  rw [← hsolRel]
  rw [if_neg hne]
  simp only []
  rw [hmax, hidx, hp]
  simp

/-- Short lines are displayed unchanged. -/
theorem elideStep_short (lt : List Char) (p : Nat) (h : lt.length ≤ maxErrorLineLength) :
    elideStep lt p = (lt, p) := by
  unfold elideStep
  rw [if_neg (by omega)]

/-- For a long line with the marker inside it, the elided text fits the
display width, keeps the caret inside, and carries the `[...]` mark. -/
theorem elideStep_long (lt : List Char) (p : Nat) (hlong : maxErrorLineLength < lt.length)
    (hin : p < lt.length) :
    (elideStep lt p).1.length ≤ maxErrorLineLength ∧
      (elideStep lt p).2 < (elideStep lt p).1.length ∧
      ((elideStep lt p).1.take 5 = elisionMark ∨
        (elideStep lt p).1.drop ((elideStep lt p).1.length - 5) = elisionMark) := by
  have hmark : elisionMark.length = 5 := rfl
  have htakemark : ∀ l2 : List Char, (elisionMark ++ l2).take 5 = elisionMark := by
    intro l2
    rw [List.take_append_of_le_length (by rw [hmark])]
    rw [show (5 : Nat) = elisionMark.length from hmark.symm, List.take_length]
  rw [show maxErrorLineLength = 79 from rfl] at hlong ⊢
  unfold elideStep maxErrorLineLength
  rw [if_pos (by omega)]
  by_cases hp : p > (79 + 1) / 2 - 5
  · have hp' : 35 < p := by omega
    rw [if_pos hp]
    simp only
    have hdlen : (lt.drop (p - ((79 + 1) / 2 - 6))).length = lt.length - (p - 34) := by
      rw [List.length_drop]
    have hlt1 : (elisionMark ++ lt.drop (p - ((79 + 1) / 2 - 6))).length =
        5 + (lt.length - (p - 34)) := by
      rw [List.length_append, hmark, hdlen]
    by_cases h2 : (elisionMark ++ lt.drop (p - ((79 + 1) / 2 - 6))).length -
        (79 - 1) / 2 > (79 + 1) / 2
    · rw [if_pos h2]
      rw [hlt1] at h2
      have htake74 : ((elisionMark ++ lt.drop (p - ((79 + 1) / 2 - 6))).take
          ((79 - 1) / 2 + 79 / 2 - 4)).length = 74 := by
        rw [List.length_take, hlt1]
        omega
      have hreslen : (((elisionMark ++ lt.drop (p - ((79 + 1) / 2 - 6))).take
          ((79 - 1) / 2 + 79 / 2 - 4)) ++ elisionMark).length = 79 := by
        rw [List.length_append, htake74, hmark]
      refine ⟨by rw [hreslen], by rw [hreslen]; omega, Or.inl ?_⟩
      rw [List.take_append_of_le_length (by rw [htake74]; omega)]
      rw [List.take_take]
      rw [show min 5 ((79 - 1) / 2 + 79 / 2 - 4) = 5 by omega]
      exact htakemark _
    · rw [if_neg h2]
      rw [hlt1] at h2
      refine ⟨by rw [hlt1]; omega, ?_, Or.inl (htakemark _)⟩
      rw [hlt1]
      omega
  · have hp' : p ≤ 35 := by omega
    rw [if_neg hp]
    simp only
    have h2 : lt.length - p > (79 + 1) / 2 := by omega
    rw [if_pos h2]
    have htakelen : (lt.take (p + 79 / 2 - 4)).length = p + 35 := by
      rw [List.length_take]
      omega
    have hreslen : ((lt.take (p + 79 / 2 - 4)) ++ elisionMark).length = p + 40 := by
      rw [List.length_append, htakelen, hmark]
    refine ⟨by rw [hreslen]; omega, by rw [hreslen]; omega, Or.inr ?_⟩
    rw [hreslen]
    rw [show p + 40 - 5 = (lt.take (p + 79 / 2 - 4)).length by rw [htakelen]; omega]
    rw [List.drop_left]

/-- C6: for a symbol position inside the source whose line (as displayed)
is at most 79 characters long, `print_error` returns the string
`Error on line L:` followed by the text of the 1-based line `L` containing
the position and a caret indented to the column
`position - sum_of_previous_line_lengths`, then the suggestion. -/
theorem print_error_line_and_caret (src : List Char) (pos i : Nat) (sugg : String)
    (h1 : ((lineLengths src).take i).sum ≤ pos)
    (h2 : pos < ((lineLengths src).take (i + 1)).sum)
    (hshort : ((splitNl src).getD i []).length ≤ 79) :
    printErrorStr src (some ((pos : Int))) sugg =
      "Error on line " ++ toString (i + 1) ++ ":\n\n" ++ String.mk ((splitNl src).getD i [])
        ++ "\n" ++ String.mk (List.replicate (pos - ((lineLengths src).take i).sum) ' ')
        ++ "^\n\n" ++ sugg := by
  rw [printErrorStr_locates src pos i sugg h1 h2]
  rw [elideStep_short _ _ hshort]
  rfl

theorem print_error_line_and_caret_witness :
    printErrorStr ("ab\ncde".data) (some ((4 : Nat) : Int)) "msg" =
      "Error on line 2:\n\ncde\n ^\n\nmsg" := by
  have h := print_error_line_and_caret ("ab\ncde".data) 4 1 "msg" (by decide) (by decide) (by decide)
  exact h.trans (by decide)

/-- C7: for a symbol position inside the source on a line longer than 79
characters, the displayed line is the elision of the source line: it fits
the 79-character display width, the caret index falls within the
displayed text, and the displayed text begins or ends with `[...]`. -/
theorem print_error_long_line_elision (src : List Char) (pos i : Nat) (sugg : String)
    (h1 : ((lineLengths src).take i).sum ≤ pos)
    (h2 : pos < ((lineLengths src).take (i + 1)).sum)
    (hlong : 79 < ((splitNl src).getD i []).length)
    (hin : pos - ((lineLengths src).take i).sum < ((splitNl src).getD i []).length) :
    printErrorStr src (some ((pos : Int))) sugg =
        mkErrOutput (i + 1)
          (elideStep ((splitNl src).getD i []) (pos - ((lineLengths src).take i).sum)) sugg ∧
      (elideStep ((splitNl src).getD i []) (pos - ((lineLengths src).take i).sum)).1.length ≤ 79 ∧
      (elideStep ((splitNl src).getD i []) (pos - ((lineLengths src).take i).sum)).2 <
        (elideStep ((splitNl src).getD i []) (pos - ((lineLengths src).take i).sum)).1.length ∧
      ((elideStep ((splitNl src).getD i []) (pos - ((lineLengths src).take i).sum)).1.take 5 =
          elisionMark ∨
        (elideStep ((splitNl src).getD i []) (pos - ((lineLengths src).take i).sum)).1.drop
            ((elideStep ((splitNl src).getD i []) (pos - ((lineLengths src).take i).sum)).1.length - 5) =
          elisionMark) := by
  refine ⟨printErrorStr_locates src pos i sugg h1 h2, ?_⟩
  exact elideStep_long _ _ hlong hin

theorem print_error_long_line_elision_witness :
    ((List.replicate 40 'a' ++ ['b'] ++ List.replicate 59 'c').length > 79) ∧
    (printErrorStr (List.replicate 40 'a' ++ ['b'] ++ List.replicate 59 'c')
        (some ((40 : Nat) : Int)) "m" =
      mkErrOutput 1 (elideStep ((splitNl (List.replicate 40 'a' ++ ['b'] ++ List.replicate 59 'c')).getD 0 [])
        (40 - ((lineLengths (List.replicate 40 'a' ++ ['b'] ++ List.replicate 59 'c')).take 0).sum)) "m") := by
  constructor
  · decide
  · exact (print_error_long_line_elision _ 40 0 "m" (by decide) (by decide) (by decide) (by decide)).1

/-! ## Scanner state preservation and symbol classification (C2, C3) -/


theorem advance_pres (sc : ScannerS) :
    (advance sc).names = sc.names ∧ (advance sc).src = sc.src ∧
      (advance sc).comment = sc.comment := by
  unfold advance
  split <;> exact ⟨rfl, rfl, rfl⟩

theorem backwards_pres (sc : ScannerS) :
    (backwards sc).names = sc.names ∧ (backwards sc).src = sc.src ∧
      (backwards sc).comment = sc.comment := by
  unfold backwards
  split <;>
    exact ⟨((advance_pres _).1.trans rfl), ((advance_pres _).2.1.trans rfl),
      ((advance_pres _).2.2.trans rfl)⟩

theorem skipSpaces_pres {fuel : Nat} {sc sc' : ScannerS} (h : skipSpaces fuel sc = some sc') :
    sc'.names = sc.names ∧ sc'.src = sc.src ∧ sc'.comment = sc.comment := by
  induction fuel generalizing sc with
  | zero => exact absurd h (by simp [skipSpaces])
  | succ f ih =>
    unfold skipSpaces at h
    cases hcur : sc.current with
    | none => rw [hcur] at h; simp only [Option.some.injEq] at h; subst h; exact ⟨rfl, rfl, rfl⟩
    | some c =>
      rw [hcur] at h
      simp only at h
      by_cases hsp : pyIsSpace c
      · rw [if_pos hsp] at h
        have hr := ih h
        have ha := advance_pres sc
        exact ⟨hr.1.trans ha.1, hr.2.1.trans ha.2.1, hr.2.2.trans ha.2.2⟩
      · rw [if_neg hsp] at h
        simp only [Option.some.injEq] at h
        subst h
        exact ⟨rfl, rfl, rfl⟩

theorem getNameLoop_pres {fuel : Nat} {sc sc' : ScannerS} {acc cs : List Char}
    (h : getNameLoop fuel sc acc = some (sc', cs)) :
    sc'.names = sc.names ∧ sc'.src = sc.src := by
  induction fuel generalizing sc acc with
  | zero => exact absurd h (by simp [getNameLoop])
  | succ f ih =>
    unfold getNameLoop at h
    cases hcur : sc.current with
    | none => rw [hcur] at h
              simp only [Option.some.injEq, Prod.mk.injEq] at h
              rw [← h.1]; exact ⟨rfl, rfl⟩
    | some c =>
      rw [hcur] at h
      simp only at h
      by_cases hal : pyIsAlnum c
      · rw [if_pos hal] at h
        have hr := ih h
        have ha := advance_pres sc
        exact ⟨hr.1.trans ha.1, hr.2.trans ha.2.1⟩
      · rw [if_neg hal] at h
        simp only [Option.some.injEq, Prod.mk.injEq] at h
        rw [← h.1]
        exact ⟨rfl, rfl⟩

theorem getNumberLoop_pres {fuel : Nat} {sc sc' : ScannerS} {acc n : Nat}
    (h : getNumberLoop fuel sc acc = some (sc', n)) :
    sc'.names = sc.names ∧ sc'.src = sc.src ∧ acc ≤ n := by
  induction fuel generalizing sc acc with
  | zero => exact absurd h (by simp [getNumberLoop])
  | succ f ih =>
    unfold getNumberLoop at h
    cases hcur : sc.current with
    | none => rw [hcur] at h
              simp only [Option.some.injEq, Prod.mk.injEq] at h
              rw [← h.1, ← h.2]; exact ⟨rfl, rfl, le_refl _⟩
    | some c =>
      rw [hcur] at h
      simp only at h
      by_cases hdg : pyIsDigit c
      · rw [if_pos hdg] at h
        have hr := ih h
        have ha := advance_pres sc
        exact ⟨hr.1.trans ha.1, hr.2.1.trans ha.2.1, by omega⟩
      · rw [if_neg hdg] at h
        simp only [Option.some.injEq, Prod.mk.injEq] at h
        rw [← h.1, ← h.2]
        exact ⟨rfl, rfl, le_refl _⟩

theorem checkComment_state (sc : ScannerS) : (checkComment sc).1 = advance sc := rfl

theorem commentLoop_pres {fuel : Nat} {sc sc' : ScannerS} (h : commentLoop fuel sc = some sc') :
    sc'.names = sc.names ∧ sc'.src = sc.src := by
  induction fuel generalizing sc with
  | zero => exact absurd h (by simp [commentLoop])
  | succ f ih =>
    unfold commentLoop at h
    by_cases hcm : sc.comment
    · rw [if_pos hcm] at h
      cases hcur : sc.current with
      | none => rw [hcur] at h; simp only [Option.some.injEq] at h; subst h; exact ⟨rfl, rfl⟩
      | some c =>
        rw [hcur] at h
        simp only at h
        by_cases hbs : c = '\\'
        · rw [if_pos hbs] at h
          rcases hcc : checkComment sc with ⟨t, b⟩
          rw [hcc] at h
          simp only at h
          have hr := ih h
          have ht : t = advance sc := by
            have := checkComment_state sc
            rw [hcc] at this
            exact this
          have ha1 := advance_pres {t with comment := b}
          have ha2 := advance_pres sc
          constructor
          · rw [hr.1, ha1.1]
            show t.names = sc.names
            rw [ht, ha2.1]
          · rw [hr.2, ha1.2.1]
            show t.src = sc.src
            rw [ht, ha2.2.1]
        · rw [if_neg hbs] at h
          have hr := ih h
          have ha := advance_pres sc
          exact ⟨hr.1.trans ha.1, hr.2.trans ha.2.1⟩
    · rw [if_neg hcm] at h
      have hs := skipSpaces_pres h
      exact ⟨hs.1, hs.2.1⟩

def SymClass (sym : Symbol) : Prop :=
  (sym.type = some tyKEYWORD →
    (sym.id = some 0 ↔ sym.string = some "CIRCUIT") ∧
    (sym.id = some 1 ↔ sym.string = some "DEVICES")) ∧
  (sym.type = some tyNAME → ∃ n, sym.id = some n ∧ 14 ≤ n) ∧
  (sym.type = some tyZERO → sym.id = some 0) ∧
  (sym.type = some tyNUMBER → ∃ n, sym.id = some n ∧ 1 ≤ n) ∧
  ((sym.type ≠ some tyKEYWORD ∧ sym.type ≠ some tyNAME ∧ sym.type ≠ some tyZERO ∧
    sym.type ≠ some tyNUMBER) → sym.id = none)

theorem punct_class (t : Nat) (pos : Int) (ch : Char)
    (ht : t ≠ tyKEYWORD ∧ t ≠ tyNAME ∧ t ≠ tyZERO ∧ t ≠ tyNUMBER) :
    SymClass (mkPunct t pos ch) := by
  unfold SymClass mkPunct
  refine ⟨?_, ?_, ?_, ?_, ?_⟩ <;> intro hh <;> simp_all

theorem pyLookup_kw {names rest : List String} (h : names = keywordsList ++ rest)
    {w : String} (hw : w ∈ keywordsList) :
    (pyLookup names w).2 = keywordsList.indexOf w := by
  subst h
  unfold pyLookup
  rw [if_pos (List.mem_append.mpr (Or.inl hw))]
  exact List.indexOf_append_of_mem hw

theorem kw_indexOf_small : ∀ w ∈ keywordsList,
    (keywordsList.indexOf w = 0 ↔ w = "CIRCUIT") ∧
    (keywordsList.indexOf w = 1 ↔ w = "DEVICES") := by decide

theorem pyLookup_nonkw {names rest : List String} (h : names = keywordsList ++ rest)
    {w : String} (hw : w ∉ keywordsList) :
    14 ≤ (pyLookup names w).2 := by
  subst h
  unfold pyLookup
  have hlen : keywordsList.length = 14 := rfl
  split
  · rw [List.indexOf_append_of_not_mem hw]
    omega
  · rw [List.length_append]
    omega

theorem getName_pres {fuel : Nat} {sc sc' : ScannerS} {name : String}
    (h : getName fuel sc = some (sc', name)) : sc'.names = sc.names ∧ sc'.src = sc.src := by
  unfold getName at h
  simp only at h
  cases hl : getNameLoop fuel (advance sc)
      (match sc.current with | some c => [c] | none => []) with
  | none => rw [hl] at h; exact absurd h (by simp)
  | some p =>
    obtain ⟨sc2, cs⟩ := p
    rw [hl] at h
    simp only [Option.some.injEq, Prod.mk.injEq] at h
    have hp := getNameLoop_pres hl
    have ha := advance_pres sc
    rw [← h.1]
    exact ⟨hp.1.trans ha.1, hp.2.trans ha.2.1⟩

/-- Classification of the symbols `get_symbol` can produce, given that the
names table starts with the 14 keywords (spec invariant I5): keyword
symbols carry the keyword's table index as `id` (0 iff CIRCUIT, 1 iff
DEVICES), name symbols carry an id of at least 14, ZERO carries 0,
NUMBER a positive value, and all other symbols carry no id. -/
theorem dispatch_class {fuel : Nat} {sc sc' : ScannerS} {pos : Int} {sym : Symbol}
    {pr : List String} {rest : List String} (hkw : sc.names = keywordsList ++ rest)
    (h : dispatch fuel sc pos = some (sc', sym, pr)) : SymClass sym := by
  unfold dispatch at h
  cases hcur : sc.current with
  | none =>
    rw [hcur] at h
    simp only at h
    split at h <;>
    · simp only [Option.some.injEq, Prod.mk.injEq] at h
      rw [← h.2.1]
      unfold SymClass
      refine ⟨?_, ?_, ?_, ?_, ?_⟩ <;> intro hh <;> simp_all [tyEOF, tyKEYWORD, tyNAME, tyZERO, tyNUMBER]
  | some ch =>
    rw [hcur] at h
    simp only at h
    by_cases hal : pyIsAlpha ch
    · rw [if_pos hal] at h
      cases hgn : getName fuel sc with
      | none => rw [hgn] at h; exact absurd h (by simp)
      | some p =>
        obtain ⟨sc2, name⟩ := p
        rw [hgn] at h
        simp only [Option.some.injEq, Prod.mk.injEq] at h
        have hnames : sc2.names = keywordsList ++ rest := by
          rw [(getName_pres hgn).1, hkw]
        rw [← h.2.1]
        by_cases hmem : name ∈ keywordsList
        · have hid := pyLookup_kw hnames hmem
          have hsm := kw_indexOf_small name hmem
          unfold SymClass
          rw [if_pos hmem]
          refine ⟨?_, ?_, ?_, ?_, ?_⟩ <;> intro hh <;>
            simp_all [tyKEYWORD, tyNAME, tyZERO, tyNUMBER]
        · have hid := pyLookup_nonkw hnames hmem
          unfold SymClass
          rw [if_neg hmem]
          refine ⟨?_, ?_, ?_, ?_, ?_⟩ <;> intro hh
          · simp_all [tyKEYWORD, tyNAME]
          · exact ⟨(pyLookup sc2.names name).2, rfl, hid⟩
          · simp_all [tyNAME, tyZERO]
          · simp_all [tyNAME, tyNUMBER]
          · simp_all
    · rw [if_neg hal] at h
      by_cases hdg : pyIsDigit ch
      · rw [if_pos hdg] at h
        by_cases hz : pyDigitVal ch = 0
        · rw [if_pos hz] at h
          simp only [Option.some.injEq, Prod.mk.injEq] at h
          rw [← h.2.1]
          unfold SymClass
          refine ⟨?_, ?_, ?_, ?_, ?_⟩ <;> intro hh <;>
            simp_all [tyZERO, tyKEYWORD, tyNAME, tyNUMBER]
        · rw [if_neg hz] at h
          cases hgn : getNumber fuel sc with
          | none => rw [hgn] at h; exact absurd h (by simp)
          | some p =>
            obtain ⟨sc2, n⟩ := p
            rw [hgn] at h
            simp only [Option.some.injEq, Prod.mk.injEq] at h
            rw [← h.2.1]
            have hge : 1 ≤ n := by
              unfold getNumber at hgn
              simp only at hgn
              rw [hcur] at hgn
              simp only at hgn
              have := (getNumberLoop_pres hgn).2.2
              omega
            unfold SymClass
            refine ⟨?_, ?_, ?_, ?_, ?_⟩ <;> intro hh
            · simp_all [tyNUMBER, tyKEYWORD]
            · simp_all [tyNUMBER, tyNAME]
            · simp_all [tyNUMBER, tyZERO]
            · exact ⟨n, rfl, hge⟩
            · simp_all
      · rw [if_neg hdg] at h
        have punct : ∀ t : Nat, t ≠ tyKEYWORD ∧ t ≠ tyNAME ∧ t ≠ tyZERO ∧ t ≠ tyNUMBER →
            sym = mkPunct t pos ch → SymClass sym := by
          intro t ht he
          rw [he]
          exact punct_class t pos ch ht
        repeat' split at h
        all_goals
          simp only [Option.some.injEq, Prod.mk.injEq] at h
        all_goals
          exact punct _ (by decide) h.2.1.symm

theorem dispatch_src {fuel : Nat} {sc sc' : ScannerS} {pos : Int} {sym : Symbol}
    {pr : List String} (h : dispatch fuel sc pos = some (sc', sym, pr)) :
    sc'.src = sc.src := by
  unfold dispatch at h
  cases hcur : sc.current with
  | none =>
    rw [hcur] at h
    simp only at h
    split at h <;>
    · simp only [Option.some.injEq, Prod.mk.injEq] at h
      rw [← h.1]
      exact (advance_pres sc).2.1
  | some ch =>
    rw [hcur] at h
    simp only at h
    by_cases hal : pyIsAlpha ch
    · rw [if_pos hal] at h
      cases hgn : getName fuel sc with
      | none => rw [hgn] at h; exact absurd h (by simp)
      | some p =>
        obtain ⟨sc2, name⟩ := p
        rw [hgn] at h
        simp only [Option.some.injEq, Prod.mk.injEq] at h
        rw [← h.1]
        exact (getName_pres hgn).2
    · rw [if_neg hal] at h
      by_cases hdg : pyIsDigit ch
      · rw [if_pos hdg] at h
        by_cases hz : pyDigitVal ch = 0
        · rw [if_pos hz] at h
          simp only [Option.some.injEq, Prod.mk.injEq] at h
          rw [← h.1]
          exact (advance_pres sc).2.1
        · rw [if_neg hz] at h
          cases hgn : getNumber fuel sc with
          | none => rw [hgn] at h; exact absurd h (by simp)
          | some p =>
            obtain ⟨sc2, n⟩ := p
            rw [hgn] at h
            simp only [Option.some.injEq, Prod.mk.injEq] at h
            rw [← h.1]
            unfold getNumber at hgn
            simp only at hgn
            exact ((getNumberLoop_pres hgn).2.1).trans (advance_pres sc).2.1
      · rw [if_neg hdg] at h
        repeat' split at h
        all_goals
          simp only [Option.some.injEq, Prod.mk.injEq] at h
        all_goals
          rw [← h.1]
        all_goals
          exact (advance_pres sc).2.1

theorem getSymbol_src {fuel : Nat} {sc sc' : ScannerS} {sym : Symbol} {pr : List String}
    (h : getSymbol fuel sc = some (sc', sym, pr)) : sc'.src = sc.src := by
  unfold getSymbol at h
  cases hs : skipSpaces fuel sc with
  | none => rw [hs] at h; exact absurd h (by simp)
  | some sc1 =>
    rw [hs] at h
    simp only at h
    have h1 := (skipSpaces_pres hs).2.1
    by_cases hb : sc1.current = some '\\'
    · rw [if_pos hb] at h
      cases hcl : commentLoop fuel
          (if !({(checkComment sc1).1 with comment := (checkComment sc1).2}).comment then
            backwards {(checkComment sc1).1 with comment := (checkComment sc1).2}
          else {(checkComment sc1).1 with comment := (checkComment sc1).2}) with
      | none => rw [hcl] at h; exact absurd h (by simp)
      | some sc3 =>
        rw [hcl] at h
        have hc2 : (if !({(checkComment sc1).1 with comment := (checkComment sc1).2}).comment then
            backwards {(checkComment sc1).1 with comment := (checkComment sc1).2}
          else {(checkComment sc1).1 with comment := (checkComment sc1).2}).src = sc1.src := by
          split
          · rw [(backwards_pres _).2.1]
            show ((checkComment sc1).1).src = sc1.src
            rw [checkComment_state sc1]
            exact (advance_pres sc1).2.1
          · show ((checkComment sc1).1).src = sc1.src
            rw [checkComment_state sc1]
            exact (advance_pres sc1).2.1
        have h3 := (commentLoop_pres hcl).2
        exact ((dispatch_src h).trans (h3.trans hc2)).trans h1
    · rw [if_neg hb] at h
      exact (dispatch_src h).trans h1

theorem getSymbol_class {fuel : Nat} {sc sc' : ScannerS} {sym : Symbol} {pr : List String}
    {rest : List String} (hkw : sc.names = keywordsList ++ rest)
    (h : getSymbol fuel sc = some (sc', sym, pr)) : SymClass sym := by
  unfold getSymbol at h
  cases hs : skipSpaces fuel sc with
  | none => rw [hs] at h; exact absurd h (by simp)
  | some sc1 =>
    rw [hs] at h
    simp only at h
    have h1 : sc1.names = keywordsList ++ rest := by rw [(skipSpaces_pres hs).1, hkw]
    by_cases hb : sc1.current = some '\\'
    · rw [if_pos hb] at h
      cases hcl : commentLoop fuel
          (if !({(checkComment sc1).1 with comment := (checkComment sc1).2}).comment then
            backwards {(checkComment sc1).1 with comment := (checkComment sc1).2}
          else {(checkComment sc1).1 with comment := (checkComment sc1).2}) with
      | none => rw [hcl] at h; exact absurd h (by simp)
      | some sc3 =>
        rw [hcl] at h
        have hc2 : (if !({(checkComment sc1).1 with comment := (checkComment sc1).2}).comment then
            backwards {(checkComment sc1).1 with comment := (checkComment sc1).2}
          else {(checkComment sc1).1 with comment := (checkComment sc1).2}).names = sc1.names := by
          split
          · rw [(backwards_pres _).1]
            show ((checkComment sc1).1).names = sc1.names
            rw [checkComment_state sc1]
            exact (advance_pres sc1).1
          · show ((checkComment sc1).1).names = sc1.names
            rw [checkComment_state sc1]
            exact (advance_pres sc1).1
        have h3 : sc3.names = keywordsList ++ rest := by
          rw [(commentLoop_pres hcl).1, hc2, h1]
        exact dispatch_class h3 h
    · rw [if_neg hb] at h
      exact dispatch_class h1 h

/-- C2 (amended): in `name = SWITCH ( p ) ;` the parser accepts the
parameter symbol exactly when its `id` attribute is 0 or 1 — that is,
when it is the ZERO token, the number 1, or a keyword whose name ID is 0
or 1 (CIRCUIT and DEVICES); for every other parameter token it reports
`Expected state, either 0(OFF) or 1(ON)` and issues no builder call, and
on acceptance the parameter's id becomes the pending switch state. -/
theorem switch_param_acceptance (fuel : Nat) (s : PState) (sc1 : ScannerS) (t : Symbol)
    (pr : List String) (rest : List String)
    (hkw : s.sc.names = keywordsList ++ rest)
    (hdoor : s.symbol.type = some tyPARENTHESIS_LEFT)
    (herr : s.error_ = false)
    (hget : getSymbol fuel s.sc = some (sc1, t, pr)) :
    ((t.id = some 0 ∨ t.id = some 1) ↔
      (t.type = some tyZERO ∨ (t.type = some tyNUMBER ∧ t.id = some 1) ∨
        (t.type = some tyKEYWORD ∧ (t.string = some "CIRCUIT" ∨ t.string = some "DEVICES")))) ∧
    (∀ s', ¬(t.id = some 0 ∨ t.id = some 1) → switchFn fuel s = some s' →
      s'.errorCount = s.errorCount + 1 ∧ s'.events = s.events ∧
      s'.errorMsg = s.errorMsg ++ ("\n\n" ++
        printErrorStr s.sc.src t.position "Expected state, either 0(OFF) or 1(ON)")) ∧
    (∀ s', (t.id = some 0 ∨ t.id = some 1) → switchFn fuel s = some s' →
      s'.curAttribute = t.id ∧ s'.events = s.events) := by
  have hclass := getSymbol_class hkw hget
  obtain ⟨c1, c2, c3, c4, c5⟩ := hclass
  have hps : parserGetSym fuel s = some {s with sc := sc1, symbol := t, stdout := pr ++ s.stdout} := by
    unfold parserGetSym
    rw [hget]
  refine ⟨?_, ?_, ?_⟩
  · constructor
    · intro hid
      by_cases ht1 : t.type = some tyKEYWORD
      · rcases hid with hid | hid
        · exact Or.inr (Or.inr ⟨ht1, Or.inl (((c1 ht1).1).mp hid)⟩)
        · exact Or.inr (Or.inr ⟨ht1, Or.inr (((c1 ht1).2).mp hid)⟩)
      · by_cases ht2 : t.type = some tyNAME
        · obtain ⟨n, hn, hge⟩ := c2 ht2
          rcases hid with hid | hid <;> rw [hn] at hid <;>
            simp only [Option.some.injEq] at hid <;> omega
        · by_cases ht3 : t.type = some tyZERO
          · exact Or.inl ht3
          · by_cases ht4 : t.type = some tyNUMBER
            · obtain ⟨n, hn, hge⟩ := c4 ht4
              rcases hid with hid | hid
              · rw [hn] at hid
                simp only [Option.some.injEq] at hid
                omega
              · exact Or.inr (Or.inl ⟨ht4, hid⟩)
            · have := c5 ⟨ht1, ht2, ht3, ht4⟩
              rw [this] at hid
              rcases hid with hid | hid <;> exact absurd hid (by simp)
    · intro hr
      rcases hr with hz | ⟨_, h1⟩ | ⟨hk, hs⟩
      · exact Or.inl (c3 hz)
      · exact Or.inr h1
      · rcases hs with hc | hd
        · exact Or.inl (((c1 hk).1).mpr hc)
        · exact Or.inr (((c1 hk).2).mpr hd)
  · intro s' hnid hrun
    unfold switchFn at hrun
    rw [if_pos hdoor] at hrun
    rw [hps] at hrun
    simp only at hrun
    rw [if_neg hnid] at hrun
    have hf := errorFn_fields hrun
    have hsrc : sc1.src = s.sc.src := getSymbol_src hget
    refine ⟨hf.2.1, hf.2.2.1, ?_⟩
    rw [hf.2.2.2.2.2.1]
    simp only [Option.getD_none]
    rw [hsrc]
  · intro s' hid hrun
    unfold switchFn at hrun
    rw [if_pos hdoor] at hrun
    rw [hps] at hrun
    simp only at hrun
    rw [if_pos hid] at hrun
    rw [herr] at hrun
    rw [if_pos (show (!false) = true from rfl)] at hrun
    split at hrun
    · exact absurd hrun (by simp)
    · rename_i s3 heq
      have hf3 := parserGetSym_fields heq
      have hattr : s3.curAttribute = t.id := hf3.2.2.2.2.1
      have hev3 : s3.events = s.events := hf3.2.2.1
      split at hrun
      · have hf4 := parserGetSym_fields hrun
        exact ⟨hf4.2.2.2.2.1.trans hattr, hf4.2.2.1.trans hev3⟩
      · have hf4 := errorFn_fields hrun
        exact ⟨hf4.2.2.2.2.1.trans hattr, hf4.2.2.1.trans hev3⟩

def c2src : List Char := "CIRCUIT\x7bDEVICES\x7ba=SWITCH(CIRCUIT);\x7dCONNECT\x7ba>a;\x7dMONITOR\x7ba;\x7d\x7dEND".data

theorem c2init_isSome : (initParserSt 300 c2src).isSome := by decide

def c2state : PState := (initParserSt 300 c2src).get c2init_isSome

/-- Counterexample to C2 as stated: the device clause
`a=SWITCH(CIRCUIT);` is accepted — the whole file parses with zero
errors and `make_switch(a, 0)` is issued — although the parameter is the
keyword CIRCUIT, not `0` or `1`. -/
theorem switch_keyword_param_counterexample :
    (parseNetworkFn 300 trivCollab c2state).map
        (fun p => (p.2, p.1.errorCount, p.1.events.head?)) =
      some (true, 0, some (.mkSwitch 14 (some 0))) := by decide

def c2wsrc : List Char := "(CIRCUIT)1".data

theorem c2winit_isSome : (initParserSt 300 c2wsrc).isSome := by decide

def c2wstate : PState := (initParserSt 300 c2wsrc).get c2winit_isSome

theorem c2wget_isSome : (getSymbol 300 c2wstate.sc).isSome := by decide

def c2wtriple : ScannerS × Symbol × List String := (getSymbol 300 c2wstate.sc).get c2wget_isSome

theorem switch_param_acceptance_witness :
    ((c2wtriple.2.1.id = some 0 ∨ c2wtriple.2.1.id = some 1) ↔
      (c2wtriple.2.1.type = some tyZERO ∨
        (c2wtriple.2.1.type = some tyNUMBER ∧ c2wtriple.2.1.id = some 1) ∨
        (c2wtriple.2.1.type = some tyKEYWORD ∧
          (c2wtriple.2.1.string = some "CIRCUIT" ∨ c2wtriple.2.1.string = some "DEVICES")))) :=
  (switch_param_acceptance 300 c2wstate c2wtriple.1 c2wtriple.2.1 c2wtriple.2.2 []
    (by decide) (by decide) (by decide) (Option.some_get c2wget_isSome).symm).1

/-- C3 (amended): in an AND-gate clause, a parameter that scans as a
NUMBER token with value outside [1,16] (e.g. `AND(17)`) is reported as
`Number of inputs must be between 1-16`; the parameter `0` scans as the
ZERO token instead of a NUMBER, so `AND(0)` is reported as
`Expected number of inputs for AND gate (valid range: 1-16)`. -/
theorem and_gate_param_errors (fuel : Nat) (s : PState) (sc1 : ScannerS) (t : Symbol)
    (pr : List String)
    (hdoor : s.symbol.type = some tyPARENTHESIS_LEFT)
    (hget : getSymbol fuel s.sc = some (sc1, t, pr)) :
    (∀ s', t.type = some tyNUMBER → ¬(0 < pyStrToNat t.string ∧ pyStrToNat t.string ≤ 16) →
      andFn fuel s = some s' →
      s'.errorCount = s.errorCount + 1 ∧ s'.events = s.events ∧
      s'.errorMsg = s.errorMsg ++ ("\n\n" ++
        printErrorStr s.sc.src t.position "Number of inputs must be between 1-16")) ∧
    (∀ s', t.type = some tyZERO → andFn fuel s = some s' →
      s'.errorCount = s.errorCount + 1 ∧ s'.events = s.events ∧
      s'.errorMsg = s.errorMsg ++ ("\n\n" ++
        printErrorStr s.sc.src t.position
          "Expected number of inputs for AND gate (valid range: 1-16)")) := by
  have hps : parserGetSym fuel s =
      some {s with sc := sc1, symbol := t, stdout := pr ++ s.stdout} := by
    unfold parserGetSym
    rw [hget]
  have hsrc : sc1.src = s.sc.src := getSymbol_src hget
  constructor
  · intro s' hnum hout hrun
    unfold andFn gateParamFn gateStep1 rightParenStep at hrun
    rw [if_pos hdoor, hps] at hrun
    simp only at hrun
    rw [if_pos hnum] at hrun
    rw [if_pos (by simp [hout])] at hrun
    split at hrun
    · exact absurd hrun (by simp)
    · rename_i s3 heq
      have hf := errorFn_fields heq
      have herr3 : s3.error_ = true := hf.1
      have hskip3 : s3.skip = true := hf.2.2.2.1
      rw [herr3] at hrun
      simp only [Bool.not_true, Bool.false_eq_true, if_false] at hrun
      rw [hskip3] at hrun
      simp only [Bool.not_true, Bool.false_eq_true, if_false, Option.some.injEq] at hrun
      subst hrun
      refine ⟨hf.2.1, hf.2.2.1, ?_⟩
      rw [hf.2.2.2.2.2.1]
      simp only [Option.getD_none]
      rw [hsrc]
  · intro s' hzero hrun
    unfold andFn gateParamFn gateStep1 rightParenStep at hrun
    rw [if_pos hdoor, hps] at hrun
    simp only at hrun
    rw [if_neg (by rw [hzero]; decide)] at hrun
    have hf := errorFn_fields hrun
    refine ⟨hf.2.1, hf.2.2.1, ?_⟩
    rw [hf.2.2.2.2.2.1]
    simp only [Option.getD_none]
    rw [hsrc]

def strContains (hay needle : List Char) : Bool :=
  (List.range (hay.length + 1)).any (fun i => ((hay.drop i).take needle.length) == needle)

def c3src : List Char := "CIRCUIT\x7bDEVICES\x7ba=AND(0);\x7dCONNECT\x7ba>a;\x7dMONITOR\x7ba;\x7d\x7dEND".data

theorem c3init_isSome : (initParserSt 300 c3src).isSome := by decide

def c3state : PState := (initParserSt 300 c3src).get c3init_isSome

set_option maxRecDepth 4000 in
/-- Counterexample to C3 as stated: on `a=AND(0);` the parser reports
`Expected number of inputs for AND gate (valid range: 1-16)`, not the
claimed `Number of inputs must be between 1-16`. -/
theorem and_zero_message_counterexample :
    (parseNetworkFn 300 trivCollab c3state).map
        (fun p => (p.2, p.1.errorCount,
          strContains p.1.errorMsg.data ("Number of inputs must be between 1-16".data),
          strContains p.1.errorMsg.data
            ("Expected number of inputs for AND gate (valid range: 1-16)".data))) =
      some (false, 1, false, true) := by decide

def c3wsrc : List Char := "(0)1".data

theorem c3winit_isSome : (initParserSt 300 c3wsrc).isSome := by decide

def c3wstate : PState := (initParserSt 300 c3wsrc).get c3winit_isSome

theorem c3wget_isSome : (getSymbol 300 c3wstate.sc).isSome := by decide

def c3wtriple : ScannerS × Symbol × List String := (getSymbol 300 c3wstate.sc).get c3wget_isSome

theorem c3wrun_isSome : (andFn 300 c3wstate).isSome := by decide

theorem and_gate_param_errors_witness :
    c3wtriple.2.1.type = some tyZERO ∧
      ((andFn 300 c3wstate).get c3wrun_isSome).errorCount = c3wstate.errorCount + 1 ∧
      ((andFn 300 c3wstate).get c3wrun_isSome).events = c3wstate.events ∧
      ((andFn 300 c3wstate).get c3wrun_isSome).errorMsg = c3wstate.errorMsg ++ ("\n\n" ++
        printErrorStr c3wstate.sc.src c3wtriple.2.1.position
          "Expected number of inputs for AND gate (valid range: 1-16)") :=
  ⟨by decide,
    (and_gate_param_errors 300 c3wstate c3wtriple.1 c3wtriple.2.1 c3wtriple.2.2
      (by decide) (Option.some_get c3wget_isSome).symm).2 _ (by decide)
      (Option.some_get c3wrun_isSome).symm⟩


/-! ## Error-flag monotonicity and the error-count invariant (C1, C9) -/

def ErrInv (s : PState) : Prop := s.error_ = true ↔ s.errorCount ≠ 0

def StepOK (s s' : PState) : Prop :=
  (ErrInv s → ErrInv s') ∧ (s.error_ = true → s'.events = s.events ∧ s'.error_ = true)

theorem stepOK_refl (s : PState) : StepOK s s := ⟨id, fun h => ⟨rfl, h⟩⟩

theorem stepOK_trans {s t u : PState} (h1 : StepOK s t) (h2 : StepOK t u) : StepOK s u := by
  refine ⟨fun hi => h2.1 (h1.1 hi), fun he => ?_⟩
  obtain ⟨e1, e2⟩ := h1.2 he
  obtain ⟨f1, f2⟩ := h2.2 e2
  exact ⟨f1.trans e1, f2⟩

theorem stepOK_of_fields {s s' : PState} (he : s'.error_ = s.error_)
    (hc : s'.errorCount = s.errorCount) (hv : s'.events = s.events) : StepOK s s' := by
  refine ⟨fun hi => ?_, fun herr => ⟨hv, he.trans herr⟩⟩
  unfold ErrInv at hi ⊢
  rw [he, hc]
  exact hi

theorem stepOK_parserGetSym {fuel : Nat} {s s' : PState} (h : parserGetSym fuel s = some s') :
    StepOK s s' := by
  have hf := parserGetSym_fields h
  exact stepOK_of_fields hf.1 hf.2.1 hf.2.2.1

theorem stepOK_errorFn {fuel : Nat} {msg : String} {stop : Option String}
    {symOpt : Option Symbol} {s s' : PState} (h : errorFn fuel msg stop symOpt s = some s') :
    StepOK s s' := by
  have hf := errorFn_fields h
  refine ⟨fun _ => ?_, fun herr => ⟨hf.2.2.1, hf.1⟩⟩
  unfold ErrInv
  rw [hf.1, hf.2.1]
  simp

theorem stepOK_makeDevs (mk : Nat → DEvent) (s : PState) : StepOK s (makeDevs mk s) := by
  unfold makeDevs
  cases hb : s.error_ with
  | true =>
    rw [if_neg (by simp)]
    exact stepOK_refl s
  | false =>
    rw [if_pos (show (!false) = true from rfl)]
    dsimp only
    rcases hpl : pyLookupList s.sc.names (List.map (fun d => d.string.getD "") s.curDeviceNameList)
      with ⟨names2, ids⟩
    rw [hpl]
    refine ⟨fun hi => ?_, fun herr => absurd herr (by simp [hb])⟩
    unfold ErrInv at hi ⊢
    rw [hb] at hi
    constructor
    · intro hfalse
      exact absurd hfalse Bool.false_ne_true
    · intro hc
      exact absurd (hi.mpr hc) (by simp)

theorem stepOK_errGuard (s t : PState)
    (he : t.error_ = s.error_) (hc : t.errorCount = s.errorCount) (hv : t.events = s.events) :
    StepOK s (if (!s.error_) = true then t else s) := by
  split
  · exact stepOK_of_fields he hc hv
  · exact stepOK_refl s

theorem stepOK_nameFn {fuel : Nat} {k : NKind} {s : PState} {p : PState × Bool}
    (h : nameFn fuel k s = some p) : StepOK s p.1 := by
  cases k
  all_goals unfold nameFn at h
  all_goals simp only at h
  all_goals
    repeat' split at h
  all_goals try exact Option.noConfusion h
  all_goals
    simp only [Option.some.injEq] at h
    subst h
    dsimp only
  all_goals try
    solve_by_elim [stepOK_trans, stepOK_refl, stepOK_of_fields, stepOK_parserGetSym,
      stepOK_errorFn, stepOK_makeDevs, stepOK_errGuard, rfl]
  all_goals rename_i heq
  all_goals refine stepOK_trans ?_ (stepOK_parserGetSym heq)
  all_goals exact stepOK_errGuard _ _ rfl rfl rfl


theorem bnotTrue {b : Bool} (h : (!b) = true) : b = false := by
  cases b
  · rfl
  · exact absurd h (by simp)

theorem stepOK_of_errInv {s s' : PState} (hb : s.error_ = false)
    (hi : ErrInv s → ErrInv s') : StepOK s s' :=
  ⟨hi, fun he => absurd he (by simp [hb])⟩

theorem errInv_errorFn {fuel : Nat} {msg : String} {stop : Option String}
    {symOpt : Option Symbol} {s s' : PState}
    (h : errorFn fuel msg stop symOpt s = some s') : ErrInv s' := by
  have hf := errorFn_fields h
  unfold ErrInv
  rw [hf.1, hf.2.1]
  simp

/-- A record update that leaves `error_`, `errorCount` and `events`
untouched is a `StepOK` step. -/
theorem stepOK_upd (s : PState) (sc : ScannerS) (sym : Symbol) (sk : Bool) (ca : Option Nat)
    (em : String) (dl pl : List Symbol) (so : List String) :
    StepOK s
      {sc := sc, symbol := sym, error_ := s.error_, errorCount := s.errorCount, skip := sk,
       curAttribute := ca, errorMsg := em, curDeviceNameList := dl, curPinNameList := pl,
       events := s.events, stdout := so} :=
  stepOK_of_fields rfl rfl rfl

theorem stepOK_devicename {fuel : Nat} {s t : PState} {b : Bool}
    (h : devicenameFn fuel s = some (t, b)) : StepOK s t := stepOK_nameFn h

theorem stepOK_pinname {fuel : Nat} {s t : PState} {b : Bool}
    (h : pinnameFn fuel s = some (t, b)) : StepOK s t := stepOK_nameFn h

theorem stepOK_rightParenStep {fuel : Nat} {s s' : PState}
    (h : rightParenStep fuel s = some s') : StepOK s s' := by
  unfold rightParenStep at h
  try dsimp only at h
  repeat' split at h
  all_goals try exact Option.noConfusion h
  all_goals try simp only [Option.some.injEq, Prod.mk.injEq] at h
  all_goals try subst h
  all_goals try dsimp only
  all_goals
    iterate 16
      first
      | exact stepOK_refl _
      | refine stepOK_trans ?_ (stepOK_parserGetSym (by assumption))
      | refine stepOK_trans ?_ (stepOK_errorFn (by assumption))
      | refine stepOK_trans ?_ (stepOK_errGuard _ _ rfl rfl rfl)
      | refine stepOK_trans ?_ (stepOK_makeDevs _ _)
      | refine stepOK_trans ?_ (stepOK_upd _ _ _ _ _ _ _ _ _)
      | skip

theorem stepOK_clockStep1 {fuel num : Nat} {s s' : PState}
    (h : clockStep1 fuel num s = some s') : StepOK s s' := by
  unfold clockStep1 at h
  try dsimp only at h
  repeat' split at h
  all_goals try exact Option.noConfusion h
  all_goals try simp only [Option.some.injEq, Prod.mk.injEq] at h
  all_goals try subst h
  all_goals try dsimp only
  all_goals
    iterate 16
      first
      | exact stepOK_refl _
      | refine stepOK_trans ?_ (stepOK_parserGetSym (by assumption))
      | refine stepOK_trans ?_ (stepOK_errorFn (by assumption))
      | refine stepOK_trans ?_ (stepOK_errGuard _ _ rfl rfl rfl)
      | refine stepOK_trans ?_ (stepOK_upd _ _ _ _ _ _ _ _ _)
      | skip

theorem stepOK_gateStep1 {fuel num : Nat} {s s' : PState}
    (h : gateStep1 fuel num s = some s') : StepOK s s' := by
  unfold gateStep1 at h
  try dsimp only at h
  repeat' split at h
  all_goals try exact Option.noConfusion h
  all_goals try simp only [Option.some.injEq, Prod.mk.injEq] at h
  all_goals try subst h
  all_goals try dsimp only
  all_goals
    iterate 16
      first
      | exact stepOK_refl _
      | refine stepOK_trans ?_ (stepOK_errorFn (by assumption))
      | refine stepOK_trans ?_ (stepOK_upd _ _ _ _ _ _ _ _ _)
      | skip

theorem stepOK_clockFn {fuel : Nat} {s s' : PState}
    (h : clockFn fuel s = some s') : StepOK s s' := by
  unfold clockFn at h
  try dsimp only at h
  repeat' split at h
  all_goals try exact Option.noConfusion h
  all_goals try simp only [Option.some.injEq, Prod.mk.injEq] at h
  all_goals try subst h
  all_goals try dsimp only
  all_goals
    iterate 16
      first
      | exact stepOK_refl _
      | refine stepOK_trans ?_ (stepOK_parserGetSym (by assumption))
      | refine stepOK_trans ?_ (stepOK_errorFn (by assumption))
      | refine stepOK_trans ?_ (stepOK_errGuard _ _ rfl rfl rfl)
      | refine stepOK_trans ?_ (stepOK_clockStep1 (by assumption))
      | refine stepOK_trans ?_ (stepOK_rightParenStep (by assumption))
      | refine stepOK_trans ?_ (stepOK_upd _ _ _ _ _ _ _ _ _)
      | skip

theorem stepOK_gateParamFn {fuel : Nat} {msg : String} {s s' : PState}
    (h : gateParamFn fuel msg s = some s') : StepOK s s' := by
  unfold gateParamFn at h
  try dsimp only at h
  repeat' split at h
  all_goals try exact Option.noConfusion h
  all_goals try simp only [Option.some.injEq, Prod.mk.injEq] at h
  all_goals try subst h
  all_goals try dsimp only
  all_goals
    iterate 16
      first
      | exact stepOK_refl _
      | refine stepOK_trans ?_ (stepOK_parserGetSym (by assumption))
      | refine stepOK_trans ?_ (stepOK_errorFn (by assumption))
      | refine stepOK_trans ?_ (stepOK_errGuard _ _ rfl rfl rfl)
      | refine stepOK_trans ?_ (stepOK_gateStep1 (by assumption))
      | refine stepOK_trans ?_ (stepOK_rightParenStep (by assumption))
      | refine stepOK_trans ?_ (stepOK_upd _ _ _ _ _ _ _ _ _)
      | skip

theorem stepOK_switchFn {fuel : Nat} {s s' : PState}
    (h : switchFn fuel s = some s') : StepOK s s' := by
  unfold switchFn at h
  try dsimp only at h
  repeat' split at h
  all_goals try exact Option.noConfusion h
  all_goals try simp only [Option.some.injEq, Prod.mk.injEq] at h
  all_goals try subst h
  all_goals try dsimp only
  all_goals
    iterate 16
      first
      | exact stepOK_refl _
      | refine stepOK_trans ?_ (stepOK_parserGetSym (by assumption))
      | refine stepOK_trans ?_ (stepOK_errorFn (by assumption))
      | refine stepOK_trans ?_ (stepOK_errGuard _ _ rfl rfl rfl)
      | refine stepOK_trans ?_ (stepOK_upd _ _ _ _ _ _ _ _ _)
      | skip

theorem stepOK_deviceKinds {fuel : Nat} {s s' : PState}
    (h : deviceKinds fuel s = some s') : StepOK s s' := by
  unfold deviceKinds andFn nandFn norFn oorFn at h
  try dsimp only at h
  repeat' split at h
  all_goals try exact Option.noConfusion h
  all_goals try simp only [Option.some.injEq, Prod.mk.injEq] at h
  all_goals try (obtain ⟨h1, h2, h3⟩ := h; subst h1; subst h2; subst h3)
  all_goals try (obtain ⟨h1, h2⟩ := h; subst h1; subst h2)
  all_goals try subst h
  all_goals try dsimp only
  all_goals
    iterate 20
      first
      | exact stepOK_refl _
      | refine stepOK_trans ?_ (stepOK_parserGetSym (by assumption))
      | refine stepOK_trans ?_ (stepOK_errorFn (by assumption))
      | refine stepOK_trans ?_ (stepOK_errGuard _ _ rfl rfl rfl)
      | refine stepOK_trans ?_ (stepOK_clockFn (by assumption))
      | refine stepOK_trans ?_ (stepOK_switchFn (by assumption))
      | refine stepOK_trans ?_ (stepOK_gateParamFn (by assumption))
      | refine stepOK_trans ?_ (stepOK_makeDevs _ _)
      | refine stepOK_trans ?_ (stepOK_upd _ _ _ _ _ _ _ _ _)
      | skip

theorem stepOK_deviceCommaLoop {fuel : Nat} {s t : PState} {b : Bool}
    (h : deviceCommaLoop fuel s = some (t, b)) : StepOK s t := by
  induction fuel generalizing s t b with
  | zero => simp [deviceCommaLoop] at h
  | succ n ih =>
    unfold deviceCommaLoop at h
    try dsimp only at h
    repeat' split at h
    all_goals try exact Option.noConfusion h
    all_goals try simp only [Option.some.injEq, Prod.mk.injEq] at h
    all_goals try (obtain ⟨h1, h2, h3⟩ := h; subst h1; subst h2; subst h3)
    all_goals try (obtain ⟨h1, h2⟩ := h; subst h1; subst h2)
    all_goals try subst h
    all_goals try dsimp only
    all_goals
      iterate 20
        first
        | exact stepOK_refl _
        | refine stepOK_trans ?_ (stepOK_parserGetSym (by assumption))
        | refine stepOK_trans ?_ (stepOK_errorFn (by assumption))
        | refine stepOK_trans ?_ (stepOK_errGuard _ _ rfl rfl rfl)
        | refine stepOK_trans ?_ (stepOK_devicename (by assumption))
        | refine stepOK_trans ?_ (ih (by assumption))
        | refine stepOK_trans ?_ (stepOK_upd _ _ _ _ _ _ _ _ _)
        | skip

theorem stepOK_deviceAfterNames {fuel : Nat} {ok : Bool} {s s' : PState}
    (h : deviceAfterNames fuel ok s = some s') : StepOK s s' := by
  unfold deviceAfterNames at h
  try dsimp only at h
  repeat' split at h
  all_goals try exact Option.noConfusion h
  all_goals try simp only [Option.some.injEq, Prod.mk.injEq] at h
  all_goals try (obtain ⟨h1, h2, h3⟩ := h; subst h1; subst h2; subst h3)
  all_goals try (obtain ⟨h1, h2⟩ := h; subst h1; subst h2)
  all_goals try subst h
  all_goals try dsimp only
  all_goals
    iterate 20
      first
      | exact stepOK_refl _
      | refine stepOK_trans ?_ (stepOK_parserGetSym (by assumption))
      | refine stepOK_trans ?_ (stepOK_errorFn (by assumption))
      | refine stepOK_trans ?_ (stepOK_errGuard _ _ rfl rfl rfl)
      | refine stepOK_trans ?_ (stepOK_deviceCommaLoop (by assumption))
      | refine stepOK_trans ?_ (stepOK_deviceKinds (by assumption))
      | refine stepOK_trans ?_ (stepOK_upd _ _ _ _ _ _ _ _ _)
      | skip

theorem stepOK_deviceFn {fuel : Nat} {s s' : PState}
    (h : deviceFn fuel s = some s') : StepOK s s' := by
  unfold deviceFn at h
  try dsimp only at h
  repeat' split at h
  all_goals try exact Option.noConfusion h
  all_goals try simp only [Option.some.injEq, Prod.mk.injEq] at h
  all_goals try (obtain ⟨h1, h2, h3⟩ := h; subst h1; subst h2; subst h3)
  all_goals try (obtain ⟨h1, h2⟩ := h; subst h1; subst h2)
  all_goals try subst h
  all_goals try dsimp only
  all_goals
    iterate 20
      first
      | exact stepOK_refl _
      | refine stepOK_trans ?_ (stepOK_parserGetSym (by assumption))
      | refine stepOK_trans ?_ (stepOK_errorFn (by assumption))
      | refine stepOK_trans ?_ (stepOK_errGuard _ _ rfl rfl rfl)
      | refine stepOK_trans ?_ (stepOK_devicename (by assumption))
      | refine stepOK_trans ?_ (stepOK_deviceAfterNames (by assumption))
      | refine stepOK_trans ?_ (stepOK_upd _ _ _ _ _ _ _ _ _)
      | skip

theorem stepOK_devicelistLoop {fuel : Nat} {s t : PState} {b : Bool}
    (h : devicelistLoop fuel s = some (t, b)) : StepOK s t := by
  induction fuel generalizing s t b with
  | zero => simp [devicelistLoop] at h
  | succ n ih =>
    unfold devicelistLoop at h
    try dsimp only at h
    repeat' split at h
    all_goals try exact Option.noConfusion h
    all_goals try simp only [Option.some.injEq, Prod.mk.injEq] at h
    all_goals try (obtain ⟨h1, h2, h3⟩ := h; subst h1; subst h2; subst h3)
    all_goals try (obtain ⟨h1, h2⟩ := h; subst h1; subst h2)
    all_goals try subst h
    all_goals try dsimp only
    all_goals
      iterate 20
        first
        | exact stepOK_refl _
        | refine stepOK_trans ?_ (stepOK_parserGetSym (by assumption))
        | refine stepOK_trans ?_ (stepOK_errorFn (by assumption))
        | refine stepOK_trans ?_ (stepOK_errGuard _ _ rfl rfl rfl)
        | refine stepOK_trans ?_ (stepOK_deviceFn (by assumption))
        | refine stepOK_trans ?_ (ih (by assumption))
        | refine stepOK_trans ?_ (stepOK_upd _ _ _ _ _ _ _ _ _)
        | skip

theorem stepOK_devicesKeywordStep {fuel : Nat} {s s' : PState}
    (h : devicesKeywordStep fuel s = some s') : StepOK s s' := by
  unfold devicesKeywordStep at h
  try dsimp only at h
  repeat' split at h
  all_goals try exact Option.noConfusion h
  all_goals try simp only [Option.some.injEq, Prod.mk.injEq] at h
  all_goals try (obtain ⟨h1, h2, h3⟩ := h; subst h1; subst h2; subst h3)
  all_goals try (obtain ⟨h1, h2⟩ := h; subst h1; subst h2)
  all_goals try subst h
  all_goals try dsimp only
  all_goals
    iterate 20
      first
      | exact stepOK_refl _
      | refine stepOK_trans ?_ (stepOK_parserGetSym (by assumption))
      | refine stepOK_trans ?_ (stepOK_errorFn (by assumption))
      | refine stepOK_trans ?_ (stepOK_errGuard _ _ rfl rfl rfl)
      | refine stepOK_trans ?_ (stepOK_upd _ _ _ _ _ _ _ _ _)
      | skip

theorem stepOK_braceLeftStep {fuel : Nat} {s s' : PState}
    (h : braceLeftStep fuel s = some s') : StepOK s s' := by
  unfold braceLeftStep at h
  try dsimp only at h
  repeat' split at h
  all_goals try exact Option.noConfusion h
  all_goals try simp only [Option.some.injEq, Prod.mk.injEq] at h
  all_goals try (obtain ⟨h1, h2, h3⟩ := h; subst h1; subst h2; subst h3)
  all_goals try (obtain ⟨h1, h2⟩ := h; subst h1; subst h2)
  all_goals try subst h
  all_goals try dsimp only
  all_goals
    iterate 20
      first
      | exact stepOK_refl _
      | refine stepOK_trans ?_ (stepOK_parserGetSym (by assumption))
      | refine stepOK_trans ?_ (stepOK_errorFn (by assumption))
      | refine stepOK_trans ?_ (stepOK_errGuard _ _ rfl rfl rfl)
      | refine stepOK_trans ?_ (stepOK_upd _ _ _ _ _ _ _ _ _)
      | skip

theorem stepOK_devicelistFn {fuel : Nat} {s s' : PState}
    (h : devicelistFn fuel s = some s') : StepOK s s' := by
  unfold devicelistFn at h
  try dsimp only at h
  repeat' split at h
  all_goals try exact Option.noConfusion h
  all_goals try simp only [Option.some.injEq, Prod.mk.injEq] at h
  all_goals try (obtain ⟨h1, h2, h3⟩ := h; subst h1; subst h2; subst h3)
  all_goals try (obtain ⟨h1, h2⟩ := h; subst h1; subst h2)
  all_goals try subst h
  all_goals try dsimp only
  all_goals
    iterate 20
      first
      | exact stepOK_refl _
      | refine stepOK_trans ?_ (stepOK_parserGetSym (by assumption))
      | refine stepOK_trans ?_ (stepOK_errorFn (by assumption))
      | refine stepOK_trans ?_ (stepOK_errGuard _ _ rfl rfl rfl)
      | refine stepOK_trans ?_ (stepOK_devicesKeywordStep (by assumption))
      | refine stepOK_trans ?_ (stepOK_braceLeftStep (by assumption))
      | refine stepOK_trans ?_ (stepOK_deviceFn (by assumption))
      | refine stepOK_trans ?_ (stepOK_devicelistLoop (by assumption))
      | refine stepOK_trans ?_ (stepOK_upd _ _ _ _ _ _ _ _ _)
      | skip

theorem stepOK_pointFn {fuel : Nat} {s t : PState} {b : Bool}
    (h : pointFn fuel s = some (t, b)) : StepOK s t := by
  unfold pointFn at h
  try dsimp only at h
  repeat' split at h
  all_goals try exact Option.noConfusion h
  all_goals try simp only [Option.some.injEq, Prod.mk.injEq] at h
  all_goals try (obtain ⟨h1, h2, h3⟩ := h; subst h1; subst h2; subst h3)
  all_goals try (obtain ⟨h1, h2⟩ := h; subst h1; subst h2)
  all_goals try subst h
  all_goals try dsimp only
  all_goals
    iterate 20
      first
      | exact stepOK_refl _
      | refine stepOK_trans ?_ (stepOK_parserGetSym (by assumption))
      | refine stepOK_trans ?_ (stepOK_errorFn (by assumption))
      | refine stepOK_trans ?_ (stepOK_errGuard _ _ rfl rfl rfl)
      | refine stepOK_trans ?_ (stepOK_devicename (by assumption))
      | refine stepOK_trans ?_ (stepOK_pinname (by assumption))
      | refine stepOK_trans ?_ (stepOK_upd _ _ _ _ _ _ _ _ _)
      | skip

theorem stepOK_conOuts {s t : PState}
    {o : Option (Symbol × Symbol × Option Nat × Option Nat)}
    (h : conOuts s = (t, o)) : StepOK s t := by
  unfold conOuts at h
  try dsimp only at h
  split at h
  all_goals simp only [Prod.mk.injEq] at h
  all_goals obtain ⟨h1, h2⟩ := h
  all_goals subst h1
  · exact stepOK_of_fields rfl rfl rfl
  · exact stepOK_refl _

theorem stepOK_conChecked {fuel : Nat} {s s' : PState}
    (h : conChecked fuel s = some s') : StepOK s s' := by
  unfold conChecked at h
  try dsimp only at h
  repeat' split at h
  all_goals try exact Option.noConfusion h
  all_goals try simp only [Option.some.injEq, Prod.mk.injEq] at h
  all_goals try (obtain ⟨h1, h2, h3⟩ := h; subst h1; subst h2; subst h3)
  all_goals try (obtain ⟨h1, h2⟩ := h; subst h1; subst h2)
  all_goals try subst h
  all_goals try dsimp only
  all_goals
    iterate 20
      first
      | exact stepOK_refl _
      | refine stepOK_trans ?_ (stepOK_parserGetSym (by assumption))
      | refine stepOK_trans ?_ (stepOK_errorFn (by assumption))
      | refine stepOK_trans ?_ (stepOK_errGuard _ _ rfl rfl rfl)
      | refine stepOK_trans ?_ (stepOK_upd _ _ _ _ _ _ _ _ _)
      | skip

theorem stepOK_conCommaLoop {fuel : Nat} {s s' : PState}
    (h : conCommaLoop fuel s = some s') : StepOK s s' := by
  induction fuel generalizing s s' with
  | zero => simp [conCommaLoop] at h
  | succ n ih =>
    unfold conCommaLoop at h
    try dsimp only at h
    repeat' split at h
    all_goals try exact Option.noConfusion h
    all_goals try simp only [Option.some.injEq, Prod.mk.injEq] at h
    all_goals try (obtain ⟨h1, h2, h3⟩ := h; subst h1; subst h2; subst h3)
    all_goals try (obtain ⟨h1, h2⟩ := h; subst h1; subst h2)
    all_goals try subst h
    all_goals try dsimp only
    all_goals
      iterate 20
        first
        | exact stepOK_refl _
        | refine stepOK_trans ?_ (stepOK_parserGetSym (by assumption))
        | refine stepOK_trans ?_ (stepOK_errorFn (by assumption))
        | refine stepOK_trans ?_ (stepOK_errGuard _ _ rfl rfl rfl)
        | refine stepOK_trans ?_ (stepOK_pointFn (by assumption))
        | refine stepOK_trans ?_ (ih (by assumption))
        | refine stepOK_trans ?_ (stepOK_upd _ _ _ _ _ _ _ _ _)
        | skip

theorem stepOK_conAfterPoint {fuel : Nat} {ok : Bool} {s t : PState}
    {o : Option (Symbol × Symbol × Option Nat × Option Nat)} {a : Option Symbol}
    (h : conAfterPoint fuel ok s = some (t, o, a)) : StepOK s t := by
  unfold conAfterPoint at h
  try dsimp only at h
  rcases hco : conOuts s with ⟨s1, outs⟩
  rw [hco] at h
  try dsimp only at h
  repeat' split at h
  all_goals try exact Option.noConfusion h
  all_goals try simp only [Option.some.injEq, Prod.mk.injEq] at h
  all_goals try (obtain ⟨h1, h2, h3⟩ := h; subst h1; subst h2; subst h3)
  all_goals try (obtain ⟨h1, h2⟩ := h; subst h1; subst h2)
  all_goals try subst h
  all_goals try dsimp only
  all_goals
    iterate 20
      first
      | exact stepOK_refl _
      | refine stepOK_trans ?_ (stepOK_parserGetSym (by assumption))
      | refine stepOK_trans ?_ (stepOK_errorFn (by assumption))
      | refine stepOK_trans ?_ (stepOK_errGuard _ _ rfl rfl rfl)
      | refine stepOK_trans ?_ (stepOK_conOuts hco)
      | refine stepOK_trans ?_ (stepOK_pointFn (by assumption))
      | refine stepOK_trans ?_ (stepOK_conCommaLoop (by assumption))
      | refine stepOK_trans ?_ (stepOK_conChecked (by assumption))
      | refine stepOK_trans ?_ (stepOK_upd _ _ _ _ _ _ _ _ _)
      | skip


theorem errInv_connLoop {fuel : Nat} {c : Collab} {a b : Option Nat} {ds ps ar : Symbol}
    {l1 l2 : List (Option Nat × Symbol)} {s s' : PState}
    (h : connLoop fuel c a b ds ps ar l1 l2 s = some s') (hi : ErrInv s) : ErrInv s' := by
  induction l1 generalizing l2 s with
  | nil =>
    unfold connLoop at h
    simp only [Option.some.injEq] at h
    subst h
    exact hi
  | cons hd rest ih =>
    obtain ⟨d, dsym⟩ := hd
    unfold connLoop at h
    try dsimp only at h
    rcases hpd : l2.headD (none, defaultSymbol) with ⟨pinId, pinSym⟩
    rw [hpd] at h
    try dsimp only at h
    repeat' split at h
    all_goals first
      | exact ih h hi
      | exact errInv_errorFn h

theorem stepOK_conConnected {fuel : Nat} {c : Collab}
    {o : Option (Symbol × Symbol × Option Nat × Option Nat)} {a : Option Symbol} {s s' : PState}
    (h : conConnected fuel c o a s = some s') : StepOK s s' := by
  unfold conConnected at h
  try dsimp only at h
  split at h
  · rename_i hb
    rcases hg : o.getD (defaultSymbol, defaultSymbol, none, none) with ⟨odS, opS, odI, opI⟩
    rw [hg] at h
    try dsimp only at h
    exact stepOK_of_errInv (bnotTrue hb) (fun hi => errInv_connLoop h hi)
  · simp only [Option.some.injEq] at h
    subst h
    exact stepOK_refl _

theorem stepOK_conFinal {fuel : Nat} {s s' : PState}
    (h : conFinal fuel s = some s') : StepOK s s' := by
  unfold conFinal at h
  try dsimp only at h
  repeat' split at h
  all_goals try exact Option.noConfusion h
  all_goals try simp only [Option.some.injEq, Prod.mk.injEq] at h
  all_goals try (obtain ⟨h1, h2, h3⟩ := h; subst h1; subst h2; subst h3)
  all_goals try (obtain ⟨h1, h2⟩ := h; subst h1; subst h2)
  all_goals try subst h
  all_goals try dsimp only
  all_goals
    iterate 20
      first
      | exact stepOK_refl _
      | refine stepOK_trans ?_ (stepOK_parserGetSym (by assumption))
      | refine stepOK_trans ?_ (stepOK_errorFn (by assumption))
      | refine stepOK_trans ?_ (stepOK_errGuard _ _ rfl rfl rfl)
      | refine stepOK_trans ?_ (stepOK_upd _ _ _ _ _ _ _ _ _)
      | skip

theorem stepOK_conFn {fuel : Nat} {c : Collab} {s s' : PState}
    (h : conFn fuel c s = some s') : StepOK s s' := by
  unfold conFn at h
  try dsimp only at h
  repeat' split at h
  all_goals try exact Option.noConfusion h
  all_goals try simp only [Option.some.injEq, Prod.mk.injEq] at h
  all_goals try (obtain ⟨h1, h2, h3⟩ := h; subst h1; subst h2; subst h3)
  all_goals try (obtain ⟨h1, h2⟩ := h; subst h1; subst h2)
  all_goals try subst h
  all_goals try dsimp only
  all_goals
    iterate 20
      first
      | exact stepOK_refl _
      | refine stepOK_trans ?_ (stepOK_parserGetSym (by assumption))
      | refine stepOK_trans ?_ (stepOK_errorFn (by assumption))
      | refine stepOK_trans ?_ (stepOK_errGuard _ _ rfl rfl rfl)
      | refine stepOK_trans ?_ (stepOK_pointFn (by assumption))
      | refine stepOK_trans ?_ (stepOK_conAfterPoint (by assumption))
      | refine stepOK_trans ?_ (stepOK_conConnected (by assumption))
      | refine stepOK_trans ?_ (stepOK_conFinal (by assumption))
      | refine stepOK_trans ?_ (stepOK_upd _ _ _ _ _ _ _ _ _)
      | skip

theorem stepOK_connectionlistLoop {fuel : Nat} {c : Collab} {s t : PState} {b : Bool}
    (h : connectionlistLoop fuel c s = some (t, b)) : StepOK s t := by
  induction fuel generalizing s t b with
  | zero => simp [connectionlistLoop] at h
  | succ n ih =>
    unfold connectionlistLoop at h
    try dsimp only at h
    repeat' split at h
    all_goals try exact Option.noConfusion h
    all_goals try simp only [Option.some.injEq, Prod.mk.injEq] at h
    all_goals try (obtain ⟨h1, h2, h3⟩ := h; subst h1; subst h2; subst h3)
    all_goals try (obtain ⟨h1, h2⟩ := h; subst h1; subst h2)
    all_goals try subst h
    all_goals try dsimp only
    all_goals
      iterate 20
        first
        | exact stepOK_refl _
        | refine stepOK_trans ?_ (stepOK_parserGetSym (by assumption))
        | refine stepOK_trans ?_ (stepOK_errorFn (by assumption))
        | refine stepOK_trans ?_ (stepOK_errGuard _ _ rfl rfl rfl)
        | refine stepOK_trans ?_ (stepOK_conFn (by assumption))
        | refine stepOK_trans ?_ (ih (by assumption))
        | refine stepOK_trans ?_ (stepOK_upd _ _ _ _ _ _ _ _ _)
        | skip

theorem stepOK_connectKeywordStep {fuel : Nat} {s s' : PState}
    (h : connectKeywordStep fuel s = some s') : StepOK s s' := by
  unfold connectKeywordStep at h
  try dsimp only at h
  repeat' split at h
  all_goals try exact Option.noConfusion h
  all_goals try simp only [Option.some.injEq, Prod.mk.injEq] at h
  all_goals try (obtain ⟨h1, h2, h3⟩ := h; subst h1; subst h2; subst h3)
  all_goals try (obtain ⟨h1, h2⟩ := h; subst h1; subst h2)
  all_goals try subst h
  all_goals try dsimp only
  all_goals
    iterate 20
      first
      | exact stepOK_refl _
      | refine stepOK_trans ?_ (stepOK_parserGetSym (by assumption))
      | refine stepOK_trans ?_ (stepOK_errorFn (by assumption))
      | refine stepOK_trans ?_ (stepOK_errGuard _ _ rfl rfl rfl)
      | refine stepOK_trans ?_ (stepOK_upd _ _ _ _ _ _ _ _ _)
      | skip

theorem stepOK_monitorKeywordStep {fuel : Nat} {s s' : PState}
    (h : monitorKeywordStep fuel s = some s') : StepOK s s' := by
  unfold monitorKeywordStep at h
  try dsimp only at h
  repeat' split at h
  all_goals try exact Option.noConfusion h
  all_goals try simp only [Option.some.injEq, Prod.mk.injEq] at h
  all_goals try (obtain ⟨h1, h2, h3⟩ := h; subst h1; subst h2; subst h3)
  all_goals try (obtain ⟨h1, h2⟩ := h; subst h1; subst h2)
  all_goals try subst h
  all_goals try dsimp only
  all_goals
    iterate 20
      first
      | exact stepOK_refl _
      | refine stepOK_trans ?_ (stepOK_parserGetSym (by assumption))
      | refine stepOK_trans ?_ (stepOK_errorFn (by assumption))
      | refine stepOK_trans ?_ (stepOK_errGuard _ _ rfl rfl rfl)
      | refine stepOK_trans ?_ (stepOK_upd _ _ _ _ _ _ _ _ _)
      | skip

theorem stepOK_circuitKeywordStep {fuel : Nat} {s s' : PState}
    (h : circuitKeywordStep fuel s = some s') : StepOK s s' := by
  unfold circuitKeywordStep at h
  try dsimp only at h
  repeat' split at h
  all_goals try exact Option.noConfusion h
  all_goals try simp only [Option.some.injEq, Prod.mk.injEq] at h
  all_goals try (obtain ⟨h1, h2, h3⟩ := h; subst h1; subst h2; subst h3)
  all_goals try (obtain ⟨h1, h2⟩ := h; subst h1; subst h2)
  all_goals try subst h
  all_goals try dsimp only
  all_goals
    iterate 20
      first
      | exact stepOK_refl _
      | refine stepOK_trans ?_ (stepOK_parserGetSym (by assumption))
      | refine stepOK_trans ?_ (stepOK_errorFn (by assumption))
      | refine stepOK_trans ?_ (stepOK_errGuard _ _ rfl rfl rfl)
      | refine stepOK_trans ?_ (stepOK_upd _ _ _ _ _ _ _ _ _)
      | skip

theorem stepOK_endKeywordStep {fuel : Nat} {s s' : PState}
    (h : endKeywordStep fuel s = some s') : StepOK s s' := by
  unfold endKeywordStep at h
  try dsimp only at h
  repeat' split at h
  all_goals try exact Option.noConfusion h
  all_goals try simp only [Option.some.injEq, Prod.mk.injEq] at h
  all_goals try (obtain ⟨h1, h2, h3⟩ := h; subst h1; subst h2; subst h3)
  all_goals try (obtain ⟨h1, h2⟩ := h; subst h1; subst h2)
  all_goals try subst h
  all_goals try dsimp only
  all_goals
    iterate 20
      first
      | exact stepOK_refl _
      | refine stepOK_trans ?_ (stepOK_parserGetSym (by assumption))
      | refine stepOK_trans ?_ (stepOK_errorFn (by assumption))
      | refine stepOK_trans ?_ (stepOK_errGuard _ _ rfl rfl rfl)
      | refine stepOK_trans ?_ (stepOK_upd _ _ _ _ _ _ _ _ _)
      | skip

theorem stepOK_connectCheck {fuel : Nat} {c : Collab} {cs : Symbol} {s s' : PState}
    (h : connectCheck fuel c cs s = some s') : StepOK s s' := by
  unfold connectCheck at h
  try dsimp only at h
  repeat' split at h
  all_goals try exact Option.noConfusion h
  all_goals try simp only [Option.some.injEq, Prod.mk.injEq] at h
  all_goals try (obtain ⟨h1, h2, h3⟩ := h; subst h1; subst h2; subst h3)
  all_goals try (obtain ⟨h1, h2⟩ := h; subst h1; subst h2)
  all_goals try subst h
  all_goals try dsimp only
  all_goals
    iterate 20
      first
      | exact stepOK_refl _
      | refine stepOK_trans ?_ (stepOK_parserGetSym (by assumption))
      | refine stepOK_trans ?_ (stepOK_errorFn (by assumption))
      | refine stepOK_trans ?_ (stepOK_errGuard _ _ rfl rfl rfl)
      | refine stepOK_trans ?_ (stepOK_upd _ _ _ _ _ _ _ _ _)
      | skip

theorem stepOK_connectionlistFn {fuel : Nat} {c : Collab} {s s' : PState}
    (h : connectionlistFn fuel c s = some s') : StepOK s s' := by
  unfold connectionlistFn at h
  try dsimp only at h
  repeat' split at h
  all_goals try exact Option.noConfusion h
  all_goals try simp only [Option.some.injEq, Prod.mk.injEq] at h
  all_goals try (obtain ⟨h1, h2, h3⟩ := h; subst h1; subst h2; subst h3)
  all_goals try (obtain ⟨h1, h2⟩ := h; subst h1; subst h2)
  all_goals try subst h
  all_goals try dsimp only
  all_goals
    iterate 20
      first
      | exact stepOK_refl _
      | refine stepOK_trans ?_ (stepOK_parserGetSym (by assumption))
      | refine stepOK_trans ?_ (stepOK_errorFn (by assumption))
      | refine stepOK_trans ?_ (stepOK_errGuard _ _ rfl rfl rfl)
      | refine stepOK_trans ?_ (stepOK_connectKeywordStep (by assumption))
      | refine stepOK_trans ?_ (stepOK_braceLeftStep (by assumption))
      | refine stepOK_trans ?_ (stepOK_conFn (by assumption))
      | refine stepOK_trans ?_ (stepOK_connectionlistLoop (by assumption))
      | refine stepOK_trans ?_ (stepOK_connectCheck (by assumption))
      | refine stepOK_trans ?_ (stepOK_upd _ _ _ _ _ _ _ _ _)
      | skip

theorem stepOK_monitorMake {fuel : Nat} {c : Collab} {s s' : PState}
    (h : monitorMake fuel c s = some s') : StepOK s s' := by
  unfold monitorMake at h
  try dsimp only at h
  split at h
  · rename_i hb
    refine stepOK_of_errInv (bnotTrue hb) (fun hi => ?_)
    split at h
    · exact errInv_errorFn h
    · simp only [Option.some.injEq] at h
      subst h
      exact hi
  · simp only [Option.some.injEq] at h
    subst h
    exact stepOK_refl _

theorem stepOK_monitorFn {fuel : Nat} {c : Collab} {s s' : PState}
    (h : monitorFn fuel c s = some s') : StepOK s s' := by
  unfold monitorFn at h
  try dsimp only at h
  repeat' split at h
  all_goals try exact Option.noConfusion h
  all_goals try simp only [Option.some.injEq, Prod.mk.injEq] at h
  all_goals try (obtain ⟨h1, h2, h3⟩ := h; subst h1; subst h2; subst h3)
  all_goals try (obtain ⟨h1, h2⟩ := h; subst h1; subst h2)
  all_goals try subst h
  all_goals try dsimp only
  all_goals
    iterate 20
      first
      | exact stepOK_refl _
      | refine stepOK_trans ?_ (stepOK_parserGetSym (by assumption))
      | refine stepOK_trans ?_ (stepOK_errorFn (by assumption))
      | refine stepOK_trans ?_ (stepOK_errGuard _ _ rfl rfl rfl)
      | refine stepOK_trans ?_ (stepOK_pointFn (by assumption))
      | refine stepOK_trans ?_ (stepOK_monitorMake (by assumption))
      | refine stepOK_trans ?_ (stepOK_upd _ _ _ _ _ _ _ _ _)
      | skip

theorem stepOK_monitorlistLoop {fuel : Nat} {c : Collab} {s t : PState} {b : Bool}
    (h : monitorlistLoop fuel c s = some (t, b)) : StepOK s t := by
  induction fuel generalizing s t b with
  | zero => simp [monitorlistLoop] at h
  | succ n ih =>
    unfold monitorlistLoop at h
    try dsimp only at h
    repeat' split at h
    all_goals try exact Option.noConfusion h
    all_goals try simp only [Option.some.injEq, Prod.mk.injEq] at h
    all_goals try (obtain ⟨h1, h2, h3⟩ := h; subst h1; subst h2; subst h3)
    all_goals try (obtain ⟨h1, h2⟩ := h; subst h1; subst h2)
    all_goals try subst h
    all_goals try dsimp only
    all_goals
      iterate 20
        first
        | exact stepOK_refl _
        | refine stepOK_trans ?_ (stepOK_parserGetSym (by assumption))
        | refine stepOK_trans ?_ (stepOK_errorFn (by assumption))
        | refine stepOK_trans ?_ (stepOK_errGuard _ _ rfl rfl rfl)
        | refine stepOK_trans ?_ (stepOK_monitorFn (by assumption))
        | refine stepOK_trans ?_ (ih (by assumption))
        | refine stepOK_trans ?_ (stepOK_upd _ _ _ _ _ _ _ _ _)
        | skip

theorem stepOK_monitorlistFn {fuel : Nat} {c : Collab} {s s' : PState}
    (h : monitorlistFn fuel c s = some s') : StepOK s s' := by
  unfold monitorlistFn at h
  try dsimp only at h
  repeat' split at h
  all_goals try exact Option.noConfusion h
  all_goals try simp only [Option.some.injEq, Prod.mk.injEq] at h
  all_goals try (obtain ⟨h1, h2, h3⟩ := h; subst h1; subst h2; subst h3)
  all_goals try (obtain ⟨h1, h2⟩ := h; subst h1; subst h2)
  all_goals try subst h
  all_goals try dsimp only
  all_goals
    iterate 20
      first
      | exact stepOK_refl _
      | refine stepOK_trans ?_ (stepOK_parserGetSym (by assumption))
      | refine stepOK_trans ?_ (stepOK_errorFn (by assumption))
      | refine stepOK_trans ?_ (stepOK_errGuard _ _ rfl rfl rfl)
      | refine stepOK_trans ?_ (stepOK_monitorKeywordStep (by assumption))
      | refine stepOK_trans ?_ (stepOK_monitorFn (by assumption))
      | refine stepOK_trans ?_ (stepOK_monitorlistLoop (by assumption))
      | refine stepOK_trans ?_ (stepOK_upd _ _ _ _ _ _ _ _ _)
      | skip

theorem stepOK_circuitFn {fuel : Nat} {c : Collab} {s s' : PState}
    (h : circuitFn fuel c s = some s') : StepOK s s' := by
  unfold circuitFn at h
  try dsimp only at h
  repeat' split at h
  all_goals try exact Option.noConfusion h
  all_goals try simp only [Option.some.injEq, Prod.mk.injEq] at h
  all_goals try (obtain ⟨h1, h2, h3⟩ := h; subst h1; subst h2; subst h3)
  all_goals try (obtain ⟨h1, h2⟩ := h; subst h1; subst h2)
  all_goals try subst h
  all_goals try dsimp only
  all_goals
    iterate 20
      first
      | exact stepOK_refl _
      | refine stepOK_trans ?_ (stepOK_parserGetSym (by assumption))
      | refine stepOK_trans ?_ (stepOK_errorFn (by assumption))
      | refine stepOK_trans ?_ (stepOK_errGuard _ _ rfl rfl rfl)
      | refine stepOK_trans ?_ (stepOK_circuitKeywordStep (by assumption))
      | refine stepOK_trans ?_ (stepOK_braceLeftStep (by assumption))
      | refine stepOK_trans ?_ (stepOK_devicelistFn (by assumption))
      | refine stepOK_trans ?_ (stepOK_connectionlistFn (by assumption))
      | refine stepOK_trans ?_ (stepOK_monitorlistFn (by assumption))
      | refine stepOK_trans ?_ (stepOK_upd _ _ _ _ _ _ _ _ _)
      | skip

theorem stepOK_parseNetworkFn {fuel : Nat} {c : Collab} {s t : PState} {b : Bool}
    (h : parseNetworkFn fuel c s = some (t, b)) : StepOK s t := by
  unfold parseNetworkFn at h
  try dsimp only at h
  repeat' split at h
  all_goals try exact Option.noConfusion h
  all_goals try simp only [Option.some.injEq, Prod.mk.injEq] at h
  all_goals try (obtain ⟨h1, h2, h3⟩ := h; subst h1; subst h2; subst h3)
  all_goals try (obtain ⟨h1, h2⟩ := h; subst h1; subst h2)
  all_goals try subst h
  all_goals try dsimp only
  all_goals
    iterate 20
      first
      | exact stepOK_refl _
      | refine stepOK_trans ?_ (stepOK_parserGetSym (by assumption))
      | refine stepOK_trans ?_ (stepOK_errorFn (by assumption))
      | refine stepOK_trans ?_ (stepOK_errGuard _ _ rfl rfl rfl)
      | refine stepOK_trans ?_ (stepOK_circuitFn (by assumption))
      | refine stepOK_trans ?_ (stepOK_endKeywordStep (by assumption))
      | refine stepOK_trans ?_ (stepOK_upd _ _ _ _ _ _ _ _ _)
      | skip

theorem parseNetworkFn_ret {fuel : Nat} {c : Collab} {s t : PState} {b : Bool}
    (h : parseNetworkFn fuel c s = some (t, b)) : b = !t.error_ := by
  unfold parseNetworkFn at h
  try dsimp only at h
  repeat' split at h
  all_goals try exact Option.noConfusion h
  all_goals simp only [Option.some.injEq, Prod.mk.injEq] at h
  all_goals obtain ⟨h1, h2⟩ := h
  all_goals subst h1
  all_goals subst h2
  all_goals rfl


theorem c1init_isSome : (initParserSt 300 []).isSome := by decide

theorem c9init_isSome : (initParserSt 300
    "CIRCUIT\x7bDEVICES\x7ba=SWITCH(1);\x7dCONNECT\x7ba>a;\x7dMONITOR\x7ba;\x7d\x7dEND".data).isSome := by
  decide

theorem c1run_isSome : (parseNetworkFn 300 trivCollab ((initParserSt 300 []).get c1init_isSome)).isSome := by decide

theorem c9run_isSome :
    (parseNetworkFn 300 trivCollab
      {(initParserSt 300
          "CIRCUIT\x7bDEVICES\x7ba=SWITCH(1);\x7dCONNECT\x7ba>a;\x7dMONITOR\x7ba;\x7d\x7dEND".data).get
            c9init_isSome with
        error_ := true, errorCount := 1}).isSome := by decide

theorem parseNetworkFn_out {fuel : Nat} {c : Collab} {s t : PState} {b : Bool}
    (h : parseNetworkFn fuel c s = some (t, b)) :
    (∃ pre : String,
      t.errorMsg = pre ++ ("\n\n" ++ ("Error Count: " ++ toString t.errorCount))) ∧
    t.stdout.head? = some ("Error Count: " ++ toString t.errorCount) := by
  unfold parseNetworkFn at h
  try dsimp only at h
  repeat' split at h
  all_goals try exact Option.noConfusion h
  all_goals simp only [Option.some.injEq, Prod.mk.injEq] at h
  all_goals obtain ⟨h1, h2⟩ := h
  all_goals subst h1
  all_goals subst h2
  all_goals exact ⟨⟨_, rfl⟩, rfl⟩

/-- C1: for every input file, `parse_network` returns true iff the final
error count is zero; on exit it has appended the line `Error Count: N`
(N the error counter) to the accumulated error text and written that line
to standard output. -/
theorem parse_network_return_and_count (fuel : Nat) (c : Collab) (src : List Char)
    (s0 s' : PState) (ret : Bool)
    (hinit : initParserSt fuel src = some s0)
    (hrun : parseNetworkFn fuel c s0 = some (s', ret)) :
    (ret = true ↔ s'.errorCount = 0) ∧
    (∃ pre : String,
      s'.errorMsg = pre ++ ("\n\n" ++ ("Error Count: " ++ toString s'.errorCount))) ∧
    s'.stdout.head? = some ("Error Count: " ++ toString s'.errorCount) := by
  have hinv0 : ErrInv s0 := by
    unfold initParserSt at hinit
    repeat' split at hinit
    all_goals try exact Option.noConfusion hinit
    all_goals simp only [Option.some.injEq] at hinit
    all_goals subst hinit
    unfold ErrInv
    simp
  have hinv2 : ErrInv s' := (stepOK_parseNetworkFn hrun).1 hinv0
  have hret : ret = !s'.error_ := parseNetworkFn_ret hrun
  refine ⟨?_, parseNetworkFn_out hrun⟩
  subst hret
  unfold ErrInv at hinv2
  cases ht : s'.error_ with
  | true =>
    have hne : s'.errorCount ≠ 0 := hinv2.mp ht
    simp [ht, hne]
  | false =>
    have h0 : s'.errorCount = 0 := by
      by_contra hne
      rw [hinv2.mpr hne] at ht
      exact Bool.noConfusion ht
    simp [ht, h0]

def c1s0 : PState := (initParserSt 300 []).get c1init_isSome

def c1res : PState × Bool := (parseNetworkFn 300 trivCollab c1s0).get c1run_isSome

theorem parse_network_return_and_count_witness :
    (c1res.2 = true ↔ c1res.1.errorCount = 0) ∧
    (∃ pre : String,
      c1res.1.errorMsg = pre ++ ("\n\n" ++ ("Error Count: " ++ toString c1res.1.errorCount))) ∧
    c1res.1.stdout.head? = some ("Error Count: " ++ toString c1res.1.errorCount) :=
  parse_network_return_and_count 300 trivCollab [] c1s0 c1res.1 c1res.2
    (Option.some_get c1init_isSome).symm (Option.some_get c1run_isSome).symm

/-- C9: with the error flag set, every parse routine that issues builder
calls leaves the recorded `make_*` call list untouched and the flag set: the
Devices, Network and Monitors state after an erroneous parse equals the
state at the first error, and `parse_network` then returns false. -/
theorem error_flag_freezes_build_calls (fuel : Nat) (c : Collab) (s : PState)
    (herr : s.error_ = true) :
    (∀ s', deviceFn fuel s = some s' → s'.events = s.events ∧ s'.error_ = true) ∧
    (∀ s', conFn fuel c s = some s' → s'.events = s.events ∧ s'.error_ = true) ∧
    (∀ s', monitorFn fuel c s = some s' → s'.events = s.events ∧ s'.error_ = true) ∧
    (∀ s', devicelistFn fuel s = some s' → s'.events = s.events ∧ s'.error_ = true) ∧
    (∀ s', connectionlistFn fuel c s = some s' → s'.events = s.events ∧ s'.error_ = true) ∧
    (∀ s', monitorlistFn fuel c s = some s' → s'.events = s.events ∧ s'.error_ = true) ∧
    (∀ s', circuitFn fuel c s = some s' → s'.events = s.events ∧ s'.error_ = true) ∧
    (∀ s' ret, parseNetworkFn fuel c s = some (s', ret) →
      s'.events = s.events ∧ s'.error_ = true ∧ ret = false) := by
  refine ⟨fun s' h => (stepOK_deviceFn h).2 herr,
    fun s' h => (stepOK_conFn h).2 herr,
    fun s' h => (stepOK_monitorFn h).2 herr,
    fun s' h => (stepOK_devicelistFn h).2 herr,
    fun s' h => (stepOK_connectionlistFn h).2 herr,
    fun s' h => (stepOK_monitorlistFn h).2 herr,
    fun s' h => (stepOK_circuitFn h).2 herr,
    fun s' ret h => ?_⟩
  obtain ⟨hv, he⟩ := (stepOK_parseNetworkFn h).2 herr
  refine ⟨hv, he, ?_⟩
  rw [parseNetworkFn_ret h, he]
  rfl

def c9src : List Char :=
  "CIRCUIT\x7bDEVICES\x7ba=SWITCH(1);\x7dCONNECT\x7ba>a;\x7dMONITOR\x7ba;\x7d\x7dEND".data

def c9state : PState :=
  {(initParserSt 300 c9src).get c9init_isSome with error_ := true, errorCount := 1}

def c9res : PState × Bool := (parseNetworkFn 300 trivCollab c9state).get c9run_isSome

theorem error_flag_freezes_build_calls_witness :
    c9state.error_ = true ∧
      (c9res.1.events = c9state.events ∧ c9res.1.error_ = true ∧ c9res.2 = false) :=
  ⟨rfl, (error_flag_freezes_build_calls 300 trivCollab c9state rfl).2.2.2.2.2.2.2
      c9res.1 c9res.2 (Option.some_get c9run_isSome).symm⟩

end LogSim
